import Mathlib

/-! Starboard scan pipeline: a shallow embedding.

The development follows the packages of the repository:

* `pkg/kube/runnable_job.go`        : `runnableJob.Run`
* `pkg/policyreport/builder.go`     : `GetScanJobName`, `ReportBuilder`
* `pkg/policyreport/io.go`          : `readWriter`
* `pkg/policyreport/scanner.go`     : `Scanner`

Go values of type `error` are `Option Err` (`none` is `nil`). A library call that
returns `(T, error)` is an `Except Err T`; the methods `ReportBuilder.Get`,
`Scanner.Scan` and `getVulnerabilityReportsByScanJob` return the Go pair of the
value and the error, so that a value next to an error can be told.
Go maps with string keys are association lists. The cluster API interfaces
(`kubernetes.Interface`, `client.Client`) are records of state-passing operations
over an arbitrary cluster state; an in-memory implementation runs the code on
concrete inputs. A call that blocks on the completion channel has the outcome
`blocked`.
-/

namespace Starboard

/-! ## Errors -/

/-- The reasons of API status errors that the code tells apart
(`metav1.StatusReason`). -/
inductive StatusReason where
  | NotFound
  | AlreadyExists
  | Conflict
  | Other (reason : String)
  deriving DecidableEq, Repr

/-- A Go error value: a plain error (`errors.New`, `fmt.Errorf` without `%w`),
an API status error (`*errors.StatusError`), or `fmt.Errorf("<text>: %w", cause)`. -/
inductive Err where
  | New (text : String)
  | Status (reason : StatusReason) (text : String)
  | Wrap (text : String) (cause : Err)
  deriving DecidableEq, Repr

/-- The method `Error()`: the message of an error. -/
def Err.Error : Err → String
  | .New text => text
  | .Status _ text => text
  | .Wrap text cause => text ++ ": " ++ cause.Error

/-- The function `errors.ReasonForError`: the status reason of the first status
error in the `%w` chain (`errors.As`), if there is one. -/
def Err.ReasonForError : Err → Option StatusReason
  | .New _ => none
  | .Status reason _ => some reason
  | .Wrap _ cause => cause.ReasonForError

/-- The function `errors.IsNotFound`. -/
def IsNotFound (err : Err) : Bool :=
  err.ReasonForError == some StatusReason.NotFound

/-- The function `errors.IsAlreadyExists`. -/
def IsAlreadyExists (err : Err) : Bool :=
  err.ReasonForError == some StatusReason.AlreadyExists

/-- The Go interface type `error`; `none` is `nil`. -/
abbrev GoError := Option Err

/-! ## Go maps with string keys -/

/-- A `map[string]string`: an association list that holds each key once. -/
abbrev StringMap := List (String × String)

/-- The map lookup `m[k]` with the comma-ok result. -/
def StringMap.get (m : StringMap) (k : String) : Option String :=
  match m with
  | [] => none
  | (k', v) :: rest => if k' = k then some v else StringMap.get rest k

/-- The map assignment `m[k] = v`. -/
def StringMap.set (m : StringMap) (k v : String) : StringMap :=
  match m with
  | [] => [(k, v)]
  | (k', v') :: rest =>
    if k' = k then (k, v) :: rest else (k', v') :: StringMap.set rest k v

/-! ## Object metadata (`metav1`) and the scheme -/

/-- The struct `schema.GroupVersionKind`. -/
structure GroupVersionKind where
  Group : String
  Version : String
  Kind : String
  deriving DecidableEq, Repr

/-- The struct `metav1.OwnerReference`. The field `APIVersion` is kept parsed, as
the group and the version that `schema.ParseGroupVersion` reads from it. -/
structure OwnerReference where
  Group : String
  Version : String
  Kind : String
  Name : String
  UID : String
  Controller : Option Bool
  BlockOwnerDeletion : Option Bool
  deriving DecidableEq, Repr

/-- The fields of `metav1.ObjectMeta` that the code reads or writes, and the
system-managed ones that a stored record carries. -/
structure ObjectMeta where
  Name : String
  Namespace : String
  UID : String
  ResourceVersion : String
  Labels : StringMap
  Annotations : StringMap
  OwnerReferences : List OwnerReference
  deriving DecidableEq, Repr

/-- A container of a pod specification: its name and its image reference. -/
structure Container where
  Name : String
  Image : String
  deriving DecidableEq, Repr

/-- The struct `corev1.PodSpec`: the fields the scanner touches, and the rest of
the specification as one value. -/
structure PodSpec where
  Containers : List Container
  Tolerations : List String
  ServiceAccountName : String
  Rest : String
  deriving DecidableEq, Repr

/-- A `client.Object`: a cluster object seen through its dynamic Go type (the key
of the scheme), its `TypeMeta` kind and its metadata. -/
structure Object where
  GoType : String
  TypeMetaKind : String
  Meta : ObjectMeta
  deriving DecidableEq, Repr

/-- A `runtime.Scheme`, the runtime type registry: the group-version-kinds
registered for a Go type (`Scheme.ObjectKinds`). -/
structure Scheme where
  ObjectKinds : String → List GroupVersionKind

/-- The function `apiutil.GVKForObject`: the single group-version-kind that the
scheme registers for the type of the object. -/
def GVKForObject (obj : Object) (scheme : Scheme) : Except Err GroupVersionKind :=
  match scheme.ObjectKinds obj.GoType with
  | [] => .error (.New ("no kind is registered for the type " ++ obj.GoType))
  | [gvk] => .ok gvk
  | _ :: _ :: _ =>
    .error (.New ("multiple group-version-kinds associated with type " ++ obj.GoType))

/-! ## `controllerutil` -/

/-- The function `controllerutil.validateOwner`: a namespaced owner may only own
objects of its own namespace. -/
def validateOwner (ownerNs objNs : String) : GoError :=
  if ownerNs ≠ "" then
    if objNs = "" then
      some (.New ("cluster-scoped resource must not have a namespace-scoped owner, " ++
        "owner namespace " ++ ownerNs))
    else if ownerNs ≠ objNs then
      some (.New ("cross-namespace owner references are disallowed, owner namespace " ++
        ownerNs ++ ", obj namespace " ++ objNs))
    else none
  else none

/-- The function `controllerutil.referSameObject`. -/
def referSameObject (a b : OwnerReference) : Bool :=
  a.Group == b.Group && a.Kind == b.Kind && a.Name == b.Name

/-- The function `controllerutil.upsertOwnerRef`: replace the first reference to
the same object, or append. -/
def upsertOwnerRef (ref : OwnerReference) : List OwnerReference → List OwnerReference
  | [] => [ref]
  | r :: rest => if referSameObject r ref then ref :: rest else r :: upsertOwnerRef ref rest

/-- The function `metav1.GetControllerOf`: the first owner reference whose
`Controller` flag is set. -/
def GetControllerOf (m : ObjectMeta) : Option OwnerReference :=
  m.OwnerReferences.find? (fun r => r.Controller == some true)

/-- The function `controllerutil.SetOwnerReference`, on the metadata of the owned
object. -/
def SetOwnerReference (owner : Object) (object : ObjectMeta) (scheme : Scheme) :
    Except Err ObjectMeta :=
  match validateOwner owner.Meta.Namespace object.Namespace with
  | some err => .error err
  | none =>
    match GVKForObject owner scheme with
    | .error err => .error err
    | .ok gvk =>
      let ref : OwnerReference :=
        { Group := gvk.Group, Version := gvk.Version, Kind := gvk.Kind,
          Name := owner.Meta.Name, UID := owner.Meta.UID,
          Controller := none, BlockOwnerDeletion := none }
      .ok { object with OwnerReferences := upsertOwnerRef ref object.OwnerReferences }

/-- The function `controllerutil.SetControllerReference`, on the metadata of the
controlled object; an owner that is `nil` is no `runtime.Object`. -/
def SetControllerReference (owner : Option Object) (controlled : ObjectMeta)
    (scheme : Scheme) : Except Err ObjectMeta :=
  match owner with
  | none => .error (.New "<nil> is not a runtime.Object, cannot call SetControllerReference")
  | some owner =>
    match validateOwner owner.Meta.Namespace controlled.Namespace with
    | some err => .error err
    | none =>
      match GVKForObject owner scheme with
      | .error err => .error err
      | .ok gvk =>
        let ref : OwnerReference :=
          { Group := gvk.Group, Version := gvk.Version, Kind := gvk.Kind,
            Name := owner.Meta.Name, UID := owner.Meta.UID,
            Controller := some true, BlockOwnerDeletion := some true }
        match GetControllerOf controlled with
        | some existing =>
          if referSameObject existing ref then
            .ok { controlled with
                  OwnerReferences := upsertOwnerRef ref controlled.OwnerReferences }
          else
            .error (.New ("Object " ++ controlled.Namespace ++ "/" ++ controlled.Name ++
              " is already owned by another " ++ existing.Kind ++ " controller " ++
              existing.Name))
        | none =>
          .ok { controlled with
                OwnerReferences := upsertOwnerRef ref controlled.OwnerReferences }

/-! ## Package `kube`: the helpers used by the scan pipeline -/

/-- The struct `kube.Object`: a reference to a workload by kind, namespace and
name. -/
structure KubeObject where
  Kind : String
  Namespace : String
  Name : String
  deriving DecidableEq, Repr

/-- Modelled from the spec: the constants `kube.KindDeployment`, `kube.KindPod` and
`kube.KindReplicaSet` are declared elsewhere in the repository; they name the kinds
"a higher-level controller delegating to its active replica set". -/
def KindDeployment : String := "Deployment"

/-- Modelled from the spec: see `KindDeployment`. -/
def KindPod : String := "Pod"

/-- Modelled from the spec: see `KindDeployment`. -/
def KindReplicaSet : String := "ReplicaSet"

/-- Modelled from the spec: `kube.KindForObject` is declared elsewhere in the
repository; it determines the kind of the owner "from the runtime type registry" and
fails when it cannot. A builder without an owner has no kind. -/
def KindForObject (object : Option Object) (scheme : Scheme) : Except Err String :=
  match object with
  | none => .error (.New "<nil> is not a runtime.Object")
  | some obj =>
    match GVKForObject obj scheme with
    | .error err => .error err
    | .ok gvk => .ok gvk.Kind

/-- Modelled from the spec: the label keys of package `starboard`
(`LabelResourceKind`, `LabelResourceName`, `LabelResourceNamespace`,
`LabelContainerName`, `LabelPodSpecHash`, ...) are declared elsewhere in the
repository; the spec lists them as `resourceKind`, `resourceName`,
`resourceNamespace`, `containerName` and `podSpecHash`. -/
def LabelResourceKind : String := "resourceKind"

/-- Modelled from the spec: see `LabelResourceKind`. -/
def LabelResourceName : String := "resourceName"

/-- Modelled from the spec: see `LabelResourceKind`. -/
def LabelResourceNamespace : String := "resourceNamespace"

/-- Modelled from the spec: see `LabelResourceKind`. -/
def LabelContainerName : String := "containerName"

/-- Modelled from the spec: see `LabelResourceKind`. -/
def LabelPodSpecHash : String := "podSpecHash"

/-! ## Package `policyreport`: the report builder -/

/-- Modelled from the spec: the payload of a report (`v1alpha1.VulnerabilityReportData`)
is declared elsewhere in the repository; it is "opaque scanner-specific structured
data", here its serialised form. -/
abbrev ReportData := String

/-- The report record (`v1alpha1.VulnerabilityReport`): metadata and payload. -/
structure VulnerabilityReport where
  Meta : ObjectMeta
  Report : ReportData
  deriving DecidableEq, Repr

/-- The zero value of `ObjectMeta`. -/
def ObjectMeta.zero : ObjectMeta :=
  { Name := "", Namespace := "", UID := "", ResourceVersion := "",
    Labels := [], Annotations := [], OwnerReferences := [] }

/-- The zero value of the report struct. -/
def VulnerabilityReport.zero : VulnerabilityReport := { Meta := ObjectMeta.zero, Report := "" }

/-- The function `GetScanJobName`, with `kube.ComputeHash` on a `kube.Object` as
the parameter `ComputeHash` (it is declared elsewhere in the repository). -/
def GetScanJobName (ComputeHash : KubeObject → String) (obj : Object) : String :=
  "scan-vulnerabilityreport-" ++
    ComputeHash { Kind := obj.TypeMetaKind, Namespace := obj.Meta.Namespace,
                  Name := obj.Meta.Name }

/-- The struct `ReportBuilder`. -/
structure ReportBuilder where
  scheme : Scheme
  owner : Option Object
  container : String
  hash : String
  data : ReportData

/-- The function `NewReportBuilder`. -/
def NewReportBuilder (scheme : Scheme) : ReportBuilder :=
  { scheme := scheme, owner := none, container := "", hash := "", data := "" }

/-- The method `ReportBuilder.Controller`. -/
def ReportBuilder.Controller (b : ReportBuilder) (owner : Object) : ReportBuilder :=
  { b with owner := some owner }

/-- The method `ReportBuilder.Container`. -/
def ReportBuilder.Container (b : ReportBuilder) (name : String) : ReportBuilder :=
  { b with container := name }

/-- The method `ReportBuilder.PodSpecHash`. -/
def ReportBuilder.PodSpecHash (b : ReportBuilder) (hash : String) : ReportBuilder :=
  { b with hash := hash }

/-- The method `ReportBuilder.Data`. -/
def ReportBuilder.Data (b : ReportBuilder) (data : ReportData) : ReportBuilder :=
  { b with data := data }

/-- The name of the owner held by a builder (`b.owner.GetName()`). -/
def ReportBuilder.ownerName (b : ReportBuilder) : String :=
  match b.owner with
  | some o => o.Meta.Name
  | none => ""

/-- The namespace of the owner held by a builder (`b.owner.GetNamespace()`). -/
def ReportBuilder.ownerNamespace (b : ReportBuilder) : String :=
  match b.owner with
  | some o => o.Meta.Namespace
  | none => ""

/-- The method `ReportBuilder.reportName`; `ToLower` is `strings.ToLower`. -/
def ReportBuilder.reportName (ToLower : String → String) (b : ReportBuilder) :
    Except Err String :=
  match KindForObject b.owner b.scheme with
  | .error err => .error err
  | .ok kind => .ok (ToLower kind ++ "-" ++ b.ownerName ++ "-" ++ b.container)

/-- The value with which the model ends where the Go code would panic on the read
of `OwnerReferences[0]` of an empty slice. -/
def panicIndexOutOfRange : Err :=
  .New "panic: runtime error: index out of range [0] with length 0"

/-- The method `ReportBuilder.Get`; `ToLower` is `strings.ToLower`. The result is
the Go pair of the report and the error value. -/
def ReportBuilder.Get (ToLower : String → String) (b : ReportBuilder) :
    VulnerabilityReport × GoError :=
  match KindForObject b.owner b.scheme with
  | .error err => (VulnerabilityReport.zero, some (.Wrap "getting kind for object" err))
  | .ok kind =>
    let labels : StringMap :=
      [ (LabelResourceKind, kind),
        (LabelResourceName, b.ownerName),
        (LabelResourceNamespace, b.ownerNamespace),
        (LabelContainerName, b.container) ]
    let labels := if b.hash ≠ "" then labels.set LabelPodSpecHash b.hash else labels
    match b.reportName ToLower with
    | .error err => (VulnerabilityReport.zero, some err)
    | .ok reportName =>
      let report : VulnerabilityReport :=
        { Meta := { ObjectMeta.zero with
                    Name := reportName, Namespace := b.ownerNamespace, Labels := labels },
          Report := b.data }
      match SetControllerReference b.owner report.Meta b.scheme with
      | .error err =>
        (VulnerabilityReport.zero, some (.Wrap "setting controller reference" err))
      | .ok m =>
        match m.OwnerReferences with
        | [] => (VulnerabilityReport.zero, some panicIndexOutOfRange)
        | ref :: rest =>
          ({ report with
             Meta := { m with
                       OwnerReferences :=
                         { ref with BlockOwnerDeletion := some false } :: rest } }, none)

/-- The function `strings.ToLower` on ASCII text. -/
def asciiToLower (s : String) : String := String.mk (s.data.map Char.toLower)

/-! ## Package `kube`: the runnable job -/

/-- The struct `batchv1.JobCondition`: the fields the code reads (`Type_` is the
field `Type`). -/
structure JobCondition where
  Type_ : String
  Reason : String
  Message : String
  deriving DecidableEq, Repr

/-- The constant `batchv1.JobComplete`. -/
def JobComplete : String := "Complete"

/-- The constant `batchv1.JobFailed`. -/
def JobFailed : String := "Failed"

/-- The struct `batchv1.JobSpec`: the fields the scanner sets. -/
structure JobSpec where
  BackoffLimit : Option Int
  Completions : Option Int
  ActiveDeadlineSeconds : Option Int
  TemplateLabels : StringMap
  TemplateAnnotations : StringMap
  Template : PodSpec
  deriving DecidableEq, Repr

/-- The struct `batchv1.Job`; `Conditions` is `Status.Conditions`. -/
structure Job where
  Meta : ObjectMeta
  Spec : JobSpec
  Conditions : List JobCondition
  deriving DecidableEq, Repr

/-- The struct `corev1.Secret`. -/
structure Secret where
  Meta : ObjectMeta
  Data : StringMap
  deriving DecidableEq, Repr

/-- A job seen as a `client.Object`; a job that comes from the typed clientset
has an empty `TypeMeta`. -/
def Job.toObject (j : Job) : Object :=
  { GoType := "*batchv1.Job", TypeMetaKind := "", Meta := j.Meta }

/-- The value `metav1.DeletionPropagation` of a delete request. -/
inductive DeletionPropagation where
  | Orphan
  | Background
  | Foreground
  deriving DecidableEq, Repr

/-- The part of `kubernetes.Interface` that the code calls, over a cluster state
`σ`. Each call names the namespace of the typed client it goes through; a call
that fails leaves the cluster as it was. -/
structure Clientset (σ : Type) where
  CreateSecret : σ → String → Secret → Except Err (Secret × σ)
  UpdateSecret : σ → String → Secret → Except Err (Secret × σ)
  CreateJob : σ → String → Job → Except Err (Job × σ)
  DeleteJob : σ → String → String → DeletionPropagation → Except Err σ

/-- The second argument of an update event of the job informer (`newObj`): a job,
or a value of another type. -/
inductive InformerObject where
  | job (j : Job)
  | other (goType : String)
  deriving DecidableEq, Repr

/-- How a blocking call ends: it returns its error value, or it waits on the
completion channel for ever. -/
inductive RunOutcome where
  | returned (err : GoError)
  | blocked
  deriving DecidableEq, Repr

/-- The first loop of `runnableJob.Run`: create the secrets in order, in the
namespace of the job; the result holds the created secrets (`r.secrets[i]`). -/
def runnableJob.createSecrets {σ : Type} (clientset : Clientset σ) (ns : String) :
    List Secret → σ → Except Err (List Secret) × σ
  | [], st => (.ok [], st)
  | secret :: rest, st =>
    match clientset.CreateSecret st ns secret with
    | .error err => (.error (.Wrap "creating secret" err), st)
    | .ok (created, st1) =>
      match runnableJob.createSecrets clientset ns rest st1 with
      | (.error err, st2) => (.error err, st2)
      | (.ok done, st2) => (.ok (created :: done), st2)

/-- The second loop of `runnableJob.Run`: point each created secret at the created
job and persist it. -/
def runnableJob.setOwnerReferences {σ : Type} (scheme : Scheme) (clientset : Clientset σ)
    (job : Job) : List Secret → σ → Except Err (List Secret) × σ
  | [], st => (.ok [], st)
  | secret :: rest, st =>
    match SetOwnerReference job.toObject secret.Meta scheme with
    | .error err => (.error (.Wrap "setting owner reference" err), st)
    | .ok m =>
      match clientset.UpdateSecret st job.Meta.Namespace { secret with Meta := m } with
      | .error err => (.error (.Wrap "updating secret" err), st)
      | .ok (updated, st1) =>
        match runnableJob.setOwnerReferences scheme clientset job rest st1 with
        | (.error err, st2) => (.error err, st2)
        | (.ok done, st2) => (.ok (updated :: done), st2)

/-- The `UpdateFunc` handler registered by `runnableJob.Run`: the value it sends
on the channel `complete`, if it sends one; `job` is the created job (`r.job`). -/
def runnableJob.UpdateFunc (job : Job) (newObj : InformerObject) : Option GoError :=
  match newObj with
  | .other _ => none
  | .job newJob =>
    if job.Meta.UID ≠ newJob.Meta.UID then none
    else
      match newJob.Conditions with
      | [] => none
      | condition :: _ =>
        if condition.Type_ = JobComplete then some none
        else if condition.Type_ = JobFailed then
          some (some (.New ("job failed: " ++ condition.Reason ++ ": " ++ condition.Message)))
        else none

/-- The receive `err = <-complete`: the channel is unbuffered, so `Run` gets the
value of the first send, over the update events in the order the informer
delivers them; without a send it waits for ever. -/
def runnableJob.await (job : Job) (events : List InformerObject) : RunOutcome :=
  match events.findSome? (runnableJob.UpdateFunc job) with
  | some err => .returned err
  | none => .blocked

/-- The submission steps of `runnableJob.Run` (the two loops and the creation of
the job between them): the created job (`r.job`) or the error that `Run` returns,
and the cluster state the steps leave. -/
def runnableJob.submit {σ : Type} (scheme : Scheme) (clientset : Clientset σ) (job : Job)
    (secrets : List Secret) (st : σ) : Except Err Job × σ :=
  match runnableJob.createSecrets clientset job.Meta.Namespace secrets st with
  | (.error err, st1) => (.error err, st1)
  | (.ok created, st1) =>
    match clientset.CreateJob st1 job.Meta.Namespace job with
    | .error err => (.error (.Wrap "creating job" err), st1)
    | .ok (createdJob, st2) =>
      match runnableJob.setOwnerReferences scheme clientset createdJob created st2 with
      | (.error err, st3) => (.error err, st3)
      | (.ok _, st3) => (.ok createdJob, st3)

/-- The method `runnableJob.Run` on the job and secrets of the receiver, from the
cluster state `st`, with the update events that the informer delivers after the
submission. It gives the outcome and the cluster state it leaves. -/
def runnableJob.Run {σ : Type} (scheme : Scheme) (clientset : Clientset σ) (job : Job)
    (secrets : List Secret) (st : σ) (events : List InformerObject) : RunOutcome × σ :=
  match runnableJob.submit scheme clientset job secrets st with
  | (.error err, st1) => (.returned (some err), st1)
  | (.ok createdJob, st1) => (runnableJob.await createdJob events, st1)

/-! ## Package `policyreport`: reading and writing reports -/

/-- The part of `client.Client` that the code calls, on report records, over a
cluster state `σ`. Reads leave the state as it is, and so does a failing write. -/
structure Client (σ : Type) where
  Get : σ → String → String → Except Err VulnerabilityReport
  Update : σ → VulnerabilityReport → Except Err σ
  Create : σ → VulnerabilityReport → Except Err σ
  List : σ → StringMap → String → Except Err (List VulnerabilityReport)

/-- The struct `kube.ObjectResolver`: the client it embeds and the two of its
methods that the code calls.

Modelled from the spec: `GetRelatedReplicasetName` ("resolve the child's identity")
and `GetObjectFromPartialObject` ("resolve the full owner object from a partial
reference") are declared elsewhere in the repository. -/
structure ObjectResolver (σ : Type) where
  Client : Client σ
  GetRelatedReplicasetName : σ → KubeObject → Except Err String
  GetObjectFromPartialObject : σ → KubeObject → Except Err Object

/-- The return of the result of a write (`return r.Update(ctx, copied)`): the error
value, and the cluster state that the write leaves. -/
def writeOutcome {σ : Type} (st : σ) (result : Except Err σ) : GoError × σ :=
  match result with
  | .error err => (some err, st)
  | .ok st1 => (none, st1)

/-- The method `readWriter.createOrUpdate`, from the cluster state `st`: the error
value and the cluster state it leaves. -/
def readWriter.createOrUpdate {σ : Type} (r : ObjectResolver σ) (st : σ)
    (report : VulnerabilityReport) : GoError × σ :=
  match r.Client.Get st report.Meta.Name report.Meta.Namespace with
  | .ok existing =>
    let copied : VulnerabilityReport :=
      { existing with
        Meta := { existing.Meta with Labels := report.Meta.Labels },
        Report := report.Report }
    writeOutcome st (r.Client.Update st copied)
  | .error err =>
    if IsNotFound err then writeOutcome st (r.Client.Create st report)
    else (some err, st)

/-- The method `readWriter.Write`. -/
def readWriter.Write {σ : Type} (r : ObjectResolver σ) :
    σ → List VulnerabilityReport → GoError × σ
  | st, [] => (none, st)
  | st, report :: rest =>
    match readWriter.createOrUpdate r st report with
    | (some err, st1) => (some err, st1)
    | (none, st1) => readWriter.Write r st1 rest

/-- The method `readWriter.FindByOwner`. -/
def readWriter.FindByOwner {σ : Type} (r : ObjectResolver σ) (st : σ) (owner : KubeObject) :
    Except Err (List VulnerabilityReport) :=
  match r.Client.List st
      [ (LabelResourceKind, owner.Kind),
        (LabelResourceNamespace, owner.Namespace),
        (LabelResourceName, owner.Name) ] owner.Namespace with
  | .error err => .error err
  | .ok items => .ok items

/-- The method `readWriter.FindByOwnerInHierarchy`. -/
def readWriter.FindByOwnerInHierarchy {σ : Type} (r : ObjectResolver σ) (st : σ)
    (owner : KubeObject) : Except Err (List VulnerabilityReport) :=
  match readWriter.FindByOwner r st owner with
  | .error err => .error err
  | .ok reports =>
    if reports.length = 0 ∧ (owner.Kind = KindDeployment ∨ owner.Kind = KindPod) then
      match r.GetRelatedReplicasetName st owner with
      | .error err =>
        .error (.Wrap ("getting replicaset related to " ++ owner.Kind ++ "/" ++ owner.Name) err)
      | .ok rsName =>
        match readWriter.FindByOwner r st
            { Kind := KindReplicaSet, Name := rsName, Namespace := owner.Namespace } with
        | .error err => .error err
        | .ok reports1 => .ok reports1
    else .ok reports

/-! ## Package `policyreport`: the scanner -/

/-- The map type `kube.ContainerImages`, from container names to image references.
A `range` over it visits the entries in the order of the list. -/
abbrev ContainerImages := StringMap

/-- The map `map[string]docker.Auth`, from container names to registry
credentials. -/
abbrev Credentials := StringMap

/-- The interface `Plugin`: the two callbacks that `Scan` calls. -/
structure Plugin where
  GetScanJobSpec : PodSpec → Credentials → Except Err (PodSpec × List Secret)
  ParseVulnerabilityReportData : String → String → Except Err ReportData

/-- The struct `kube.ScannerOpts`. -/
structure ScannerOpts where
  ScanJobTimeout : Nat
  DeleteScanJob : Bool

/-- Modelled from the spec: the methods `GetScanJobTolerations` and
`GetScanJobAnnotations` of `starboard.ConfigData` are declared elsewhere in the
repository; they give the "configured tolerations" and the configured annotations of
the scan pod, or fail on a malformed setting. -/
structure ConfigData where
  GetScanJobTolerations : Except Err (List String)
  GetScanJobAnnotations : Except Err StringMap

/-- Modelled from the spec: the helpers of package `kube` that the scanner calls
are declared elsewhere in the repository. `ComputeHash` is the "deterministic
fingerprinting of an owning object (kind, namespace, name) and of a pod
specification"; `GetPodSpec` extracts "the pod specification from the resolved
owner"; `GetContainerImagesFromPodSpec`, `AsJSON` and `GetContainerImagesFromJob`
write and read the "JSON-encoded map of container name → image reference" of the
annotation; `ListImagePullSecretsByPodSpec` and `MapContainerNamesToDockerAuths`
resolve the credentials; `GetLogsByJobAndContainerName` is the log retrieval
API. -/
structure KubeHelpers (σ : Type) where
  ComputeHash : KubeObject → String
  ComputeHashPodSpec : PodSpec → String
  GetPodSpec : Object → Except Err PodSpec
  GetContainerImagesFromPodSpec : PodSpec → ContainerImages
  AsJSON : ContainerImages → Except Err String
  GetContainerImagesFromJob : Job → Except Err ContainerImages
  GetActiveDeadlineSeconds : Nat → Option Int
  ListImagePullSecretsByPodSpec : σ → PodSpec → String → Except Err (List Secret)
  MapContainerNamesToDockerAuths : ContainerImages → List Secret → Except Err Credentials
  GetLogsByJobAndContainerName : σ → Job → String → Except Err String

/-- Modelled from the spec: the constants `starboard.NamespaceName`,
`ServiceAccountName`, `LabelK8SAppManagedBy`, `AppStarboard`,
`LabelVulnerabilityReportScanner` and `AnnotationContainerImages` are declared
elsewhere in the repository: the namespace of the scan jobs, the "fixed
service-account identity", two marker labels and the key of the container-images
annotation. -/
def NamespaceName : String := "starboard"

/-- Modelled from the spec: see `NamespaceName`. -/
def ServiceAccountName : String := "starboard"

/-- Modelled from the spec: see `NamespaceName`. -/
def LabelK8SAppManagedBy : String := "app.kubernetes.io/managed-by"

/-- Modelled from the spec: see `NamespaceName`. -/
def AppStarboard : String := "starboard"

/-- Modelled from the spec: see `NamespaceName`. -/
def LabelVulnerabilityReportScanner : String := "vulnerabilityReport.scanner"

/-- Modelled from the spec: see `NamespaceName`. -/
def AnnotationContainerImages : String := "starboard.container-images"

/-- The struct `Scanner`, over a cluster state `σ`; the logs reader and the
secrets reader are in `kube`. -/
structure Scanner (σ : Type) where
  scheme : Scheme
  clientset : Clientset σ
  plugin : Plugin
  objectResolver : ObjectResolver σ
  config : ConfigData
  opts : ScannerOpts
  kube : KubeHelpers σ

/-- What `Scan` gives: the reports and the error value it returns, or no return
at all while the job run waits for ever. -/
inductive ScanOutcome where
  | returned (reports : List VulnerabilityReport) (err : GoError)
  | blocked
  deriving DecidableEq, Repr

/-- The method `Scanner.getCredentials`. -/
def Scanner.getCredentials {σ : Type} (s : Scanner σ) (st : σ) (spec : PodSpec) (ns : String) :
    Except Err Credentials :=
  match s.kube.ListImagePullSecretsByPodSpec st spec ns with
  | .error err => .error err
  | .ok imagePullSecrets =>
    s.kube.MapContainerNamesToDockerAuths (s.kube.GetContainerImagesFromPodSpec spec)
      imagePullSecrets

/-- The method `Scanner.prepareScanJob`. -/
def Scanner.prepareScanJob {σ : Type} (s : Scanner σ) (workload : Object) (spec : PodSpec)
    (credentials : Credentials) : Except Err (Job × List Secret) :=
  match s.plugin.GetScanJobSpec spec credentials with
  | .error err => .error err
  | .ok (templateSpec, secrets) =>
    match s.config.GetScanJobTolerations with
    | .error err => .error err
    | .ok scanJobTolerations =>
      let templateSpec :=
        { templateSpec with Tolerations := templateSpec.Tolerations ++ scanJobTolerations }
      let templateSpec := { templateSpec with ServiceAccountName := ServiceAccountName }
      match s.kube.AsJSON (s.kube.GetContainerImagesFromPodSpec spec) with
      | .error err => .error err
      | .ok containerImagesAsJSON =>
        match s.config.GetScanJobAnnotations with
        | .error err => .error err
        | .ok scanJobAnnotations =>
          let podSpecHash := s.kube.ComputeHashPodSpec spec
          let labels : StringMap :=
            [ (LabelResourceKind, workload.TypeMetaKind),
              (LabelResourceName, workload.Meta.Name),
              (LabelResourceNamespace, workload.Meta.Namespace),
              (LabelPodSpecHash, podSpecHash),
              (LabelK8SAppManagedBy, AppStarboard),
              (LabelVulnerabilityReportScanner, "true") ]
          .ok
            ({ Meta := { ObjectMeta.zero with
                         Name := GetScanJobName s.kube.ComputeHash workload,
                         Namespace := NamespaceName,
                         Labels := labels,
                         Annotations := [(AnnotationContainerImages, containerImagesAsJSON)] },
               Spec := { BackoffLimit := some 0,
                         Completions := some 1,
                         ActiveDeadlineSeconds :=
                           s.kube.GetActiveDeadlineSeconds s.opts.ScanJobTimeout,
                         TemplateLabels := labels,
                         TemplateAnnotations := scanJobAnnotations,
                         Template := templateSpec },
               Conditions := [] },
             secrets)

/-- The loop of `Scanner.getVulnerabilityReportsByScanJob` over the remaining
entries of the container images, with the reports appended so far. The result is
the Go pair of the returned slice (`[]` is `nil`) and the error value. -/
def Scanner.collectReports {σ : Type} (ToLower : String → String) (s : Scanner σ) (st : σ)
    (job : Job) (owner : Object) (podSpecHash : String) :
    List (String × String) → List VulnerabilityReport → List VulnerabilityReport × GoError
  | [], reports => (reports, none)
  | (containerName, containerImage) :: rest, reports =>
    match s.kube.GetLogsByJobAndContainerName st job containerName with
    | .error err => ([], some err)
    | .ok logsStream =>
      match s.plugin.ParseVulnerabilityReportData containerImage logsStream with
      | .error err => ([], some err)
      | .ok result =>
        match ReportBuilder.Get ToLower
            ((((NewReportBuilder s.scheme).Controller owner).Container containerName).Data
              result |>.PodSpecHash podSpecHash) with
        | (_, some err) => ([], some err)
        | (report, none) =>
          Scanner.collectReports ToLower s st job owner podSpecHash rest (reports ++ [report])

/-- The report that one pass of the loop of `getVulnerabilityReportsByScanJob`
builds for an entry of the container images, or the error of the step that fails
for it: the log retrieval, the parsing or the report building. -/
def Scanner.containerReport {σ : Type} (ToLower : String → String) (s : Scanner σ) (st : σ)
    (job : Job) (owner : Object) (podSpecHash : String) (entry : String × String) :
    Except Err VulnerabilityReport :=
  match s.kube.GetLogsByJobAndContainerName st job entry.1 with
  | .error err => .error err
  | .ok logsStream =>
    match s.plugin.ParseVulnerabilityReportData entry.2 logsStream with
    | .error err => .error err
    | .ok result =>
      match ReportBuilder.Get ToLower
          ((((NewReportBuilder s.scheme).Controller owner).Container entry.1).Data
            result |>.PodSpecHash podSpecHash) with
      | (_, some err) => .error err
      | (report, none) => .ok report

/-- Whether a step of the loop fails for an entry of the container images. -/
def Scanner.containerFails {σ : Type} (ToLower : String → String) (s : Scanner σ) (st : σ)
    (job : Job) (owner : Object) (podSpecHash : String) (entry : String × String) : Bool :=
  match Scanner.containerReport ToLower s st job owner podSpecHash entry with
  | .error _ => true
  | .ok _ => false

/-- The method `Scanner.getVulnerabilityReportsByScanJob`. -/
def Scanner.getVulnerabilityReportsByScanJob {σ : Type} (ToLower : String → String)
    (s : Scanner σ) (st : σ) (job : Job) (owner : Object) :
    List VulnerabilityReport × GoError :=
  match s.kube.GetContainerImagesFromJob job with
  | .error err => ([], some (.Wrap "getting container images" err))
  | .ok containerImages =>
    match job.Meta.Labels.get LabelPodSpecHash with
    | none => ([], some (.New ("expected label " ++ LabelPodSpecHash ++ " not set")))
    | some podSpecHash =>
      Scanner.collectReports ToLower s st job owner podSpecHash containerImages []

/-- Modelled from the spec: `runner.New().Run` is declared elsewhere in the
repository; it does "submit via TaskRunner and block for completion", that is, it
runs the runnable job and returns what that returns. -/
def runner.Run {σ : Type} (scheme : Scheme) (clientset : Clientset σ) (job : Job)
    (secrets : List Secret) (st : σ) (events : List InformerObject) : RunOutcome × σ :=
  runnableJob.Run scheme clientset job secrets st events

/-- The deferred function of `Scanner.Scan`: delete the scan job if configured;
the error of the deletion is dropped. -/
def Scanner.deleteScanJob {σ : Type} (s : Scanner σ) (st : σ) (job : Job) : σ :=
  if !s.opts.DeleteScanJob then st
  else
    match s.clientset.DeleteJob st job.Meta.Namespace job.Meta.Name
        DeletionPropagation.Background with
    | .error _ => st
    | .ok st1 => st1

/-- The method `Scanner.Scan`, from the cluster state `st`, with the update events
that the job informer delivers after the submission: the outcome and the cluster
state it leaves. -/
def Scanner.Scan {σ : Type} (ToLower : String → String) (s : Scanner σ) (st : σ)
    (events : List InformerObject) (workload : KubeObject) : ScanOutcome × σ :=
  match s.objectResolver.GetObjectFromPartialObject st workload with
  | .error err => (.returned [] (some (.Wrap "resolving object" err)), st)
  | .ok owner =>
    match s.kube.GetPodSpec owner with
    | .error err => (.returned [] (some (.Wrap "getting Pod template" err)), st)
    | .ok spec =>
      match s.getCredentials st spec workload.Namespace with
      | .error err => (.returned [] (some err), st)
      | .ok credentials =>
        match s.prepareScanJob owner spec credentials with
        | .error err => (.returned [] (some (.Wrap "preparing scan job" err)), st)
        | .ok (job, secrets) =>
          match runner.Run s.scheme s.clientset job secrets st events with
          | (.blocked, st1) => (.blocked, st1)
          | (.returned (some err), st1) =>
            (.returned [] (some (.Wrap "running scan job" err)), st1)
          | (.returned none, st1) =>
            let (reports, err) := s.getVulnerabilityReportsByScanJob ToLower st1 job owner
            (.returned reports err, s.deleteScanJob st1 job)

/-! ## An in-memory cluster

An implementation of the two API interfaces, in the manner of the fake clientsets
of `client-go` and `controller-runtime`: objects are kept by namespace and name,
a create of a present object fails with `AlreadyExists`, an update or a delete of
an absent object fails with `NotFound`. It serves to run the code on concrete
inputs. -/

/-- The state of the in-memory cluster; `Serial` counts the objects created so
far and gives each created object a fresh UID. -/
structure Cluster where
  Secrets : List Secret
  Jobs : List Job
  Reports : List VulnerabilityReport
  Serial : Nat
  deriving DecidableEq, Repr

/-- The empty cluster. -/
def Cluster.empty : Cluster := { Secrets := [], Jobs := [], Reports := [], Serial := 0 }

/-- The UID of the next object that the in-memory cluster creates. -/
def Cluster.freshUID (st : Cluster) : String :=
  String.mk (List.replicate (st.Serial + 1) 'u')

/-- Whether the metadata names the object `ns/name`. -/
def ObjectMeta.isAt (m : ObjectMeta) (ns name : String) : Bool :=
  m.Namespace == ns && m.Name == name

/-- Whether the metadata carries an owner reference with the given UID. -/
def ObjectMeta.ownedBy (m : ObjectMeta) (uid : String) : Bool :=
  m.OwnerReferences.any (fun r => r.UID == uid)

/-- The in-memory implementation of `Clientset`. -/
def Cluster.clientset : Clientset Cluster where
  CreateSecret st ns secret :=
    if st.Secrets.any (fun x => x.Meta.isAt ns secret.Meta.Name) then
      .error (.Status .AlreadyExists ("secrets " ++ secret.Meta.Name ++ " already exists"))
    else
      let created : Secret :=
        { secret with Meta := { secret.Meta with Namespace := ns, UID := st.freshUID } }
      .ok (created, { st with Secrets := st.Secrets ++ [created], Serial := st.Serial + 1 })
  UpdateSecret st ns secret :=
    if st.Secrets.any (fun x => x.Meta.isAt ns secret.Meta.Name) then
      .ok (secret, { st with
        Secrets := st.Secrets.map
          (fun x => if x.Meta.isAt ns secret.Meta.Name then secret else x) })
    else
      .error (.Status .NotFound ("secrets " ++ secret.Meta.Name ++ " not found"))
  CreateJob st ns job :=
    if st.Jobs.any (fun x => x.Meta.isAt ns job.Meta.Name) then
      .error (.Status .AlreadyExists ("jobs.batch " ++ job.Meta.Name ++ " already exists"))
    else
      let created : Job :=
        { job with Meta := { job.Meta with Namespace := ns, UID := st.freshUID } }
      .ok (created, { st with Jobs := st.Jobs ++ [created], Serial := st.Serial + 1 })
  DeleteJob st ns name propagation :=
    match st.Jobs.find? (fun x => x.Meta.isAt ns name) with
    | none => .error (.Status .NotFound ("jobs.batch " ++ name ++ " not found"))
    | some job =>
      .ok { st with
        Jobs := st.Jobs.filter (fun x => !x.Meta.isAt ns name),
        Secrets :=
          if propagation = DeletionPropagation.Orphan then st.Secrets
          else st.Secrets.filter (fun x => !x.Meta.ownedBy job.Meta.UID) }

/-- Whether a record carries every label of the selector. -/
def matchesLabels (selector : StringMap) (m : ObjectMeta) : Bool :=
  selector.all (fun kv => m.Labels.get kv.1 == some kv.2)

/-- The in-memory implementation of `Client`. -/
def Cluster.client : Client Cluster where
  Get st name ns :=
    match st.Reports.find? (fun x => x.Meta.isAt ns name) with
    | some report => .ok report
    | none => .error (.Status .NotFound ("vulnerabilityreports " ++ name ++ " not found"))
  Update st report :=
    if st.Reports.any (fun x => x.Meta.isAt report.Meta.Namespace report.Meta.Name) then
      .ok { st with
        Reports := st.Reports.map
          (fun x => if x.Meta.isAt report.Meta.Namespace report.Meta.Name then report else x) }
    else
      .error (.Status .NotFound ("vulnerabilityreports " ++ report.Meta.Name ++ " not found"))
  Create st report :=
    if st.Reports.any (fun x => x.Meta.isAt report.Meta.Namespace report.Meta.Name) then
      .error (.Status .AlreadyExists
        ("vulnerabilityreports " ++ report.Meta.Name ++ " already exists"))
    else
      .ok { st with
        Reports := st.Reports ++ [{ report with Meta := { report.Meta with UID := st.freshUID } }],
        Serial := st.Serial + 1 }
  List st selector ns :=
    .ok (st.Reports.filter (fun x => x.Meta.Namespace == ns && matchesLabels selector x.Meta))

/-- A scheme that registers the built-in workload kinds, as `starboard.NewScheme`
does for the types of `corev1`, `batchv1` and `appsv1`. -/
def exampleScheme : Scheme where
  ObjectKinds goType :=
    if goType = "*batchv1.Job" then [{ Group := "batch", Version := "v1", Kind := "Job" }]
    else if goType = "*appsv1.Deployment" then
      [{ Group := "apps", Version := "v1", Kind := "Deployment" }]
    else if goType = "*corev1.Pod" then [{ Group := "", Version := "v1", Kind := "Pod" }]
    else []

/-- An object resolver over the in-memory cluster that knows no workload. -/
def Cluster.objectResolver : ObjectResolver Cluster where
  Client := Cluster.client
  GetRelatedReplicasetName _ owner :=
    .error (.Status .NotFound ("replicasets of " ++ owner.Name ++ " not found"))
  GetObjectFromPartialObject _ workload :=
    .error (.Status .NotFound (workload.Kind ++ " " ++ workload.Name ++ " not found"))

/-- The in-memory clientset of a cluster whose API server rejects every update of
the secret called `name` with a conflict. -/
def Cluster.conflictingClientset (name : String) : Clientset Cluster :=
  { Cluster.clientset with
    UpdateSecret := fun st ns secret =>
      if secret.Meta.Name = name then
        .error (.Status .Conflict ("secrets " ++ name ++ " has been modified"))
      else Cluster.clientset.UpdateSecret st ns secret }

/-! ## Example objects -/

/-- A deployment `web` in the namespace `ns`. -/
def exampleDeployment : Object :=
  { GoType := "*appsv1.Deployment", TypeMetaKind := "Deployment",
    Meta := { ObjectMeta.zero with Name := "web", Namespace := "ns", UID := "d-1" } }

/-- The deployment `web` of another namespace. -/
def exampleDeploymentElsewhere : Object :=
  { GoType := "*appsv1.Deployment", TypeMetaKind := "Deployment",
    Meta := { ObjectMeta.zero with Name := "web", Namespace := "other", UID := "d-2" } }

/-- A builder for the container `app` of `exampleDeployment`. -/
def exampleBuilder : ReportBuilder :=
  ((((NewReportBuilder exampleScheme).Controller exampleDeployment).Container "app").Data
    "P").PodSpecHash "abc"

/-- A builder for the container `app` of `exampleDeploymentElsewhere`, without a
pod-spec hash. -/
def exampleBuilderElsewhere : ReportBuilder :=
  ((((NewReportBuilder exampleScheme).Controller exampleDeploymentElsewhere).Container
    "app").Data "Q").PodSpecHash ""

/-- The report that `exampleBuilder` builds. -/
def exampleReport : VulnerabilityReport :=
  { Meta :=
      { Name := "deployment-web-app", Namespace := "ns", UID := "", ResourceVersion := "",
        Labels :=
          [ (LabelResourceKind, "Deployment"), (LabelResourceName, "web"),
            (LabelResourceNamespace, "ns"), (LabelContainerName, "app"),
            (LabelPodSpecHash, "abc") ],
        Annotations := [],
        OwnerReferences :=
          [ { Group := "apps", Version := "v1", Kind := "Deployment", Name := "web",
              UID := "d-1", Controller := some true, BlockOwnerDeletion := some false } ] },
    Report := "P" }

/-- A pod specification with the container `app`. -/
def examplePodSpec : PodSpec :=
  { Containers := [{ Name := "app", Image := "nginx:1.21" }], Tolerations := [],
    ServiceAccountName := "", Rest := "" }

/-- A scan job, as submitted. -/
def exampleJob : Job :=
  { Meta := { ObjectMeta.zero with Name := "scan-job", Namespace := "starboard" },
    Spec := { BackoffLimit := some 0, Completions := some 1, ActiveDeadlineSeconds := none,
              TemplateLabels := [], TemplateAnnotations := [], Template := examplePodSpec },
    Conditions := [] }

/-- A secret called `name`, as submitted. -/
def exampleSecret (name : String) : Secret :=
  { Meta := { ObjectMeta.zero with Name := name }, Data := [("password", "x")] }

/-- The secret `exampleSecret name` as the in-memory cluster creates it. -/
def exampleCreatedSecret (name uid : String) : Secret :=
  { exampleSecret name with
    Meta := { ObjectMeta.zero with Name := name, Namespace := "starboard", UID := uid } }

/-- The job `exampleJob` as the in-memory cluster creates it. -/
def exampleCreatedJob (uid : String) : Job :=
  { exampleJob with Meta := { exampleJob.Meta with UID := uid } }

/-- The owner reference to the created `exampleJob`. -/
def exampleJobReference (jobUID : String) : OwnerReference :=
  { Group := "batch", Version := "v1", Kind := "Job", Name := "scan-job", UID := jobUID,
    Controller := none, BlockOwnerDeletion := none }

/-- The created secret after its ownership update. -/
def exampleOwnedSecret (name uid jobUID : String) : Secret :=
  { exampleCreatedSecret name uid with
    Meta := { (exampleCreatedSecret name uid).Meta with
              OwnerReferences := [exampleJobReference jobUID] } }

/-! ## An example scanner -/

/-- The pod specification of the example owner: the containers `app` and
`sidecar`. -/
def exampleOwnerPodSpec : PodSpec :=
  { Containers := [ { Name := "app", Image := "nginx:1.21" },
                    { Name := "sidecar", Image := "envoy:1.20" } ],
    Tolerations := [], ServiceAccountName := "web", Rest := "" }

/-- The container images of `exampleOwnerPodSpec`. -/
def exampleContainerImages : ContainerImages :=
  [("app", "nginx:1.21"), ("sidecar", "envoy:1.20")]

/-- The reference to `exampleDeployment`. -/
def exampleWorkload : KubeObject := { Kind := "Deployment", Namespace := "ns", Name := "web" }

/-- An example plugin: one scan container per container of the workload, no
secrets; the output of a scan parses unless it is empty. -/
def examplePlugin : Plugin where
  GetScanJobSpec spec _ :=
    .ok ({ Containers := spec.Containers.map
             (fun c => { Name := c.Name, Image := "scanner:1.0" }),
           Tolerations := [], ServiceAccountName := "", Rest := "" }, [])
  ParseVulnerabilityReportData imageRef logs :=
    if logs = "" then .error (.New ("unexpected end of JSON input for " ++ imageRef))
    else .ok logs

/-- Example helpers of package `kube` over the in-memory cluster. The logs of a
container are its name, and no logs come for the container `unreadable`. -/
def exampleKube (unreadable : String) : KubeHelpers Cluster where
  ComputeHash obj := obj.Kind ++ "." ++ obj.Namespace ++ "." ++ obj.Name
  ComputeHashPodSpec spec := String.join (spec.Containers.map (fun c => c.Image))
  GetPodSpec obj :=
    if obj.GoType = "*appsv1.Deployment" then .ok exampleOwnerPodSpec
    else .error (.New ("unsupported workload: " ++ obj.GoType))
  GetContainerImagesFromPodSpec spec := spec.Containers.map (fun c => (c.Name, c.Image))
  AsJSON images := .ok (String.join (images.map (fun kv => kv.1 ++ "=" ++ kv.2 ++ ";")))
  GetContainerImagesFromJob job :=
    match job.Meta.Annotations.get AnnotationContainerImages with
    | none => .error (.New ("required annotation not set: " ++ AnnotationContainerImages))
    | some v =>
      if v = "app=nginx:1.21;sidecar=envoy:1.20;" then .ok exampleContainerImages
      else .error (.New "invalid character")
  GetActiveDeadlineSeconds timeout := some timeout
  ListImagePullSecretsByPodSpec _ _ _ := .ok []
  MapContainerNamesToDockerAuths _ _ := .ok []
  GetLogsByJobAndContainerName st job containerName :=
    if st.Jobs.any (fun x => x.Meta.isAt job.Meta.Namespace job.Meta.Name) then
      if containerName = unreadable then
        .error (.New ("container " ++ containerName ++ " is not available"))
      else .ok containerName
    else .error (.Status .NotFound ("jobs.batch " ++ job.Meta.Name ++ " not found"))

/-- An example scanner over the in-memory cluster, which knows the workload
`exampleWorkload`. -/
def exampleScanner (unreadable : String) : Scanner Cluster where
  scheme := exampleScheme
  clientset := Cluster.clientset
  plugin := examplePlugin
  objectResolver :=
    { Cluster.objectResolver with
      GetObjectFromPartialObject := fun _ workload =>
        if workload = exampleWorkload then .ok exampleDeployment
        else .error (.Status .NotFound (workload.Kind ++ " " ++ workload.Name ++ " not found")) }
  config := { GetScanJobTolerations := .ok [], GetScanJobAnnotations := .ok [] }
  opts := { ScanJobTimeout := 300, DeleteScanJob := true }
  kube := exampleKube unreadable

/-- The scan job that `exampleScanner` prepares for `exampleDeployment`. -/
def exampleScanJob : Job :=
  { Meta := { ObjectMeta.zero with
              Name := "scan-vulnerabilityreport-Deployment.ns.web",
              Namespace := NamespaceName,
              Labels :=
                [ (LabelResourceKind, "Deployment"), (LabelResourceName, "web"),
                  (LabelResourceNamespace, "ns"),
                  (LabelPodSpecHash, "nginx:1.21envoy:1.20"),
                  (LabelK8SAppManagedBy, AppStarboard),
                  (LabelVulnerabilityReportScanner, "true") ],
              Annotations :=
                [(AnnotationContainerImages, "app=nginx:1.21;sidecar=envoy:1.20;")] },
    Spec := { BackoffLimit := some 0, Completions := some 1,
              ActiveDeadlineSeconds := some 300,
              TemplateLabels :=
                [ (LabelResourceKind, "Deployment"), (LabelResourceName, "web"),
                  (LabelResourceNamespace, "ns"),
                  (LabelPodSpecHash, "nginx:1.21envoy:1.20"),
                  (LabelK8SAppManagedBy, AppStarboard),
                  (LabelVulnerabilityReportScanner, "true") ],
              TemplateAnnotations := [],
              Template :=
                { Containers := [ { Name := "app", Image := "scanner:1.0" },
                                  { Name := "sidecar", Image := "scanner:1.0" } ],
                  Tolerations := [], ServiceAccountName := ServiceAccountName, Rest := "" } },
    Conditions := [] }

/-- The update event that reports the completion of the first job that the
in-memory cluster creates. -/
def exampleCompleteEvent : InformerObject :=
  .job { exampleScanJob with
         Meta := { exampleScanJob.Meta with UID := "u" },
         Conditions := [{ Type_ := JobComplete, Reason := "", Message := "" }] }

/-- The in-memory cluster after the submission of `exampleScanJob`. -/
def exampleClusterAfterRun : Cluster :=
  { Secrets := [],
    Jobs := [{ exampleScanJob with Meta := { exampleScanJob.Meta with UID := "u" } }],
    Reports := [], Serial := 1 }

/-! ## Example records -/

/-- A stored record of `exampleReport`, with the fields that the store manages. -/
def exampleStoredReport : VulnerabilityReport :=
  { exampleReport with
    Meta := { exampleReport.Meta with
              UID := "r-1", ResourceVersion := "7", Annotations := [("note", "kept")] },
    Report := "old" }

/-- A report of a later scan for the same container: another pod-spec hash and
payload, and metadata of its own. -/
def exampleRescanReport : VulnerabilityReport :=
  { Meta := { exampleReport.Meta with
              UID := "fresh", ResourceVersion := "0", Annotations := [("note", "dropped")],
              OwnerReferences := [],
              Labels :=
                [ (LabelResourceKind, "Deployment"), (LabelResourceName, "web"),
                  (LabelResourceNamespace, "ns"), (LabelContainerName, "app"),
                  (LabelPodSpecHash, "def") ] },
    Report := "new" }

/-- A cluster that stores `exampleStoredReport`. -/
def exampleClusterWithReport : Cluster :=
  { Cluster.empty with Reports := [exampleStoredReport], Serial := 1 }

/-- A report owned by the replica set `web-5d4f` of the namespace `ns`. -/
def exampleReplicaSetReport : VulnerabilityReport :=
  { Meta := { ObjectMeta.zero with
              Name := "replicaset-web-5d4f-app", Namespace := "ns", UID := "r-2",
              Labels :=
                [ (LabelResourceKind, "ReplicaSet"), (LabelResourceName, "web-5d4f"),
                  (LabelResourceNamespace, "ns"), (LabelContainerName, "app") ] },
    Report := "P" }

/-- A cluster that stores `exampleReplicaSetReport` only. -/
def exampleClusterWithReplicaSetReport : Cluster :=
  { Cluster.empty with Reports := [exampleReplicaSetReport], Serial := 1 }

/-- An object resolver over the in-memory cluster for which the deployment
`exampleWorkload` is related to the replica set `web-5d4f`. -/
def exampleResolver : ObjectResolver Cluster :=
  { Cluster.objectResolver with
    GetRelatedReplicasetName := fun _ owner =>
      if owner = exampleWorkload then .ok "web-5d4f"
      else .error (.Status .NotFound ("replicasets of " ++ owner.Name ++ " not found")) }

/-- An object resolver whose lookups of reports fail because the API server is
unavailable. -/
def unavailableResolver : ObjectResolver Cluster :=
  { Cluster.objectResolver with
    Client :=
      { Cluster.client with
        Get := fun _ _ _ =>
          .error (.Status (.Other "ServiceUnavailable")
            "the server is currently unable to handle the request") } }

/-! ## Example objects for the builder and the job events -/

/-- An owner whose Go type the example scheme does not register. -/
def exampleUnregisteredOwner : Object :=
  { GoType := "*v1alpha1.Unknown", TypeMetaKind := "Unknown",
    Meta := { ObjectMeta.zero with Name := "thing", Namespace := "ns", UID := "x-1" } }

/-- A builder for the container `app` of `exampleUnregisteredOwner`. -/
def exampleBuilderUnregistered : ReportBuilder :=
  ((((NewReportBuilder exampleScheme).Controller exampleUnregisteredOwner).Container
    "app").Data "P").PodSpecHash "abc"

/-- An update event of the created `exampleJob` with the given UID and
conditions. -/
def exampleJobEvent (uid : String) (conditions : List JobCondition) : InformerObject :=
  .job { exampleCreatedJob uid with Conditions := conditions }

/-- A condition of the given type. -/
def exampleCondition (type : String) : JobCondition :=
  { Type_ := type, Reason := "r", Message := "m" }

/-! ## Example events and clusters for the scanner -/

/-- The update event that reports the failure of the first job that the in-memory
cluster creates. -/
def exampleFailedEvent : InformerObject :=
  .job { exampleScanJob with
         Meta := { exampleScanJob.Meta with UID := "u" },
         Conditions :=
           [{ Type_ := JobFailed, Reason := "DeadlineExceeded",
              Message := "Job was active longer than specified deadline" }] }

/-- The relation between an entry of the container images and the report that the
scan builds for it: the report is built for the owner and the container of the
entry, with the pod-spec hash, from the payload that the plugin parses from the
logs of that container for the image reference of the entry. -/
def Scanner.builtFor {σ : Type} (ToLower : String → String) (s : Scanner σ) (st : σ)
    (job : Job) (owner : Object) (podSpecHash : String) (entry : String × String)
    (report : VulnerabilityReport) : Prop :=
  ∃ logs payload,
    s.kube.GetLogsByJobAndContainerName st job entry.1 = .ok logs ∧
    s.plugin.ParseVulnerabilityReportData entry.2 logs = .ok payload ∧
    ReportBuilder.Get ToLower
        ((((NewReportBuilder s.scheme).Controller owner).Container entry.1).Data
          payload |>.PodSpecHash podSpecHash) = (report, none) ∧
    report.Report = payload ∧
    report.Meta.Namespace = owner.Meta.Namespace ∧
    report.Meta.Labels.get LabelContainerName = some entry.1

/-! ## The end-to-end scenario: one container -/

/-- The pod specification of the scenario: the container `app` with the image
`nginx:1.21`. -/
def scenarioPodSpec : PodSpec :=
  { Containers := [{ Name := "app", Image := "nginx:1.21" }], Tolerations := [],
    ServiceAccountName := "web", Rest := "" }

/-- The plugin of the scenario: it returns the payload `P` for the image of the
container `app`. -/
def scenarioPlugin : Plugin :=
  { examplePlugin with
    ParseVulnerabilityReportData := fun imageRef _ =>
      if imageRef = "nginx:1.21" then .ok "P"
      else .error (.New ("no output for " ++ imageRef)) }

/-- The helpers of the scenario: the example helpers for the pod specification of
the scenario. -/
def scenarioKube : KubeHelpers Cluster :=
  { exampleKube "" with
    GetPodSpec := fun obj =>
      if obj.GoType = "*appsv1.Deployment" then .ok scenarioPodSpec
      else .error (.New ("unsupported workload: " ++ obj.GoType)),
    GetContainerImagesFromJob := fun job =>
      match job.Meta.Annotations.get AnnotationContainerImages with
      | none => .error (.New ("required annotation not set: " ++ AnnotationContainerImages))
      | some v =>
        if v = "app=nginx:1.21;" then .ok [("app", "nginx:1.21")]
        else .error (.New "invalid character") }

/-- The scanner of the scenario. -/
def scenarioScanner : Scanner Cluster :=
  { exampleScanner "" with plugin := scenarioPlugin, kube := scenarioKube }

/-- The report that the scenario expects. -/
def scenarioReport : VulnerabilityReport :=
  { Meta :=
      { Name := "deployment-web-app", Namespace := "ns", UID := "", ResourceVersion := "",
        Labels :=
          [ (LabelResourceKind, "Deployment"), (LabelResourceName, "web"),
            (LabelResourceNamespace, "ns"), (LabelContainerName, "app"),
            (LabelPodSpecHash, "nginx:1.21") ],
        Annotations := [],
        OwnerReferences :=
          [ { Group := "apps", Version := "v1", Kind := "Deployment", Name := "web",
              UID := "d-1", Controller := some true, BlockOwnerDeletion := some false } ] },
    Report := "P" }

/-! ## Two scan targets with one report name -/

/-- A deployment `web-api` in the namespace `ns`. -/
def exampleDeploymentWebApi : Object :=
  { GoType := "*appsv1.Deployment", TypeMetaKind := "Deployment",
    Meta := { ObjectMeta.zero with Name := "web-api", Namespace := "ns", UID := "d-3" } }

/-- A builder for the container `app` of the deployment `web-api`. -/
def exampleBuilderWebApi : ReportBuilder :=
  ((((NewReportBuilder exampleScheme).Controller exampleDeploymentWebApi).Container
    "app").Data "A").PodSpecHash "abc"

/-- A builder for the container `api-app` of the deployment `web`. -/
def exampleBuilderApiApp : ReportBuilder :=
  ((((NewReportBuilder exampleScheme).Controller exampleDeployment).Container
    "api-app").Data "B").PodSpecHash "abc"

/-! ## The object store behind `Write` -/

/-- A record without the version that the store manages. -/
def VulnerabilityReport.withoutVersion (r : VulnerabilityReport) : VulnerabilityReport :=
  { r with Meta := { r.Meta with ResourceVersion := "" } }

/-- The behaviour of an object store that the idempotence of `Write` rests on: a
lookup returns a record of the name and namespace asked for; after a create, the
lookup of the created record finds a record with its labels and payload; after an
update, the lookup of the updated record finds it as it was sent, up to the
version. -/
def Client.ReadsItsWrites {σ : Type} (c : Client σ) : Prop :=
  (∀ (st : σ) (name ns : String) (r : VulnerabilityReport),
    c.Get st name ns = .ok r → r.Meta.Name = name ∧ r.Meta.Namespace = ns) ∧
  (∀ (st st1 : σ) (r : VulnerabilityReport),
    c.Create st r = .ok st1 →
    ∃ stored, c.Get st1 r.Meta.Name r.Meta.Namespace = .ok stored ∧
      stored.Meta.Labels = r.Meta.Labels ∧ stored.Report = r.Report) ∧
  (∀ (st st1 : σ) (r : VulnerabilityReport),
    c.Update st r = .ok st1 →
    ∃ stored, c.Get st1 r.Meta.Name r.Meta.Namespace = .ok stored ∧
      stored.withoutVersion = r.withoutVersion)

/-! ## A store that refuses one record -/

/-- An object resolver over the in-memory cluster whose API server forbids the
lookup of the report called `name`. -/
def forbiddingResolver (name : String) : ObjectResolver Cluster :=
  { Cluster.objectResolver with
    Client :=
      { Cluster.client with
        Get := fun st n ns =>
          if n = name then
            .error (.Status (.Other "Forbidden") ("vulnerabilityreports " ++ name ++
              " is forbidden"))
          else Cluster.client.Get st n ns } }

/-- The in-memory cluster after the creation of `exampleReport` alone. -/
def exampleClusterAfterFirstWrite : Cluster :=
  { Cluster.empty with
    Reports := [{ exampleReport with Meta := { exampleReport.Meta with UID := "u" } }],
    Serial := 1 }

/-! # Theorems -/

/-! ## The report builder -/

/-- An owner may own an object of its own namespace. -/
theorem validateOwner_same (ns : String) : validateOwner ns ns = none := by
  unfold validateOwner
  by_cases h : ns = "" <;> simp [h]

/-- The kind resolves exactly when the scheme registers one group-version-kind. -/
theorem KindForObject_ok_iff (o : Object) (scheme : Scheme) (K : String) :
    KindForObject (some o) scheme = .ok K ↔
      ∃ gvk, GVKForObject o scheme = .ok gvk ∧ gvk.Kind = K := by
  unfold KindForObject
  cases h : GVKForObject o scheme with
  | error e => simp [h]
  | ok gvk => simp [h]

/-- The report that `Get` builds for an owner whose group-version-kind resolves. -/
theorem ReportBuilder.Get_of_gvk (ToLower : String → String) (b : ReportBuilder) (o : Object)
    (gvk : GroupVersionKind) (ho : b.owner = some o)
    (hg : GVKForObject o b.scheme = .ok gvk) :
    b.Get ToLower =
      ({ Meta :=
          { Name := ToLower gvk.Kind ++ "-" ++ o.Meta.Name ++ "-" ++ b.container,
            Namespace := o.Meta.Namespace,
            UID := "",
            ResourceVersion := "",
            Labels :=
              [ (LabelResourceKind, gvk.Kind), (LabelResourceName, o.Meta.Name),
                (LabelResourceNamespace, o.Meta.Namespace),
                (LabelContainerName, b.container) ] ++
              (if b.hash = "" then [] else [(LabelPodSpecHash, b.hash)]),
            Annotations := [],
            OwnerReferences :=
              [ { Group := gvk.Group, Version := gvk.Version, Kind := gvk.Kind,
                  Name := o.Meta.Name, UID := o.Meta.UID,
                  Controller := some true, BlockOwnerDeletion := some false } ] },
         Report := b.data }, none) := by
  have hlab : ∀ v : String, StringMap.set
      [ (LabelResourceKind, gvk.Kind), (LabelResourceName, o.Meta.Name),
        (LabelResourceNamespace, o.Meta.Namespace), (LabelContainerName, b.container) ]
      LabelPodSpecHash v =
      [ (LabelResourceKind, gvk.Kind), (LabelResourceName, o.Meta.Name),
        (LabelResourceNamespace, o.Meta.Namespace), (LabelContainerName, b.container),
        (LabelPodSpecHash, v) ] := by
    intro v
    simp [StringMap.set, LabelResourceKind, LabelResourceName, LabelResourceNamespace,
      LabelContainerName, LabelPodSpecHash]
  unfold ReportBuilder.Get ReportBuilder.reportName KindForObject
  simp only [ho, hg, ReportBuilder.ownerName, ReportBuilder.ownerNamespace]
  unfold SetControllerReference
  simp only [ObjectMeta.zero, validateOwner_same, hg, GetControllerOf, List.find?_nil,
    upsertOwnerRef]
  by_cases hh : b.hash = "" <;> simp [hh, hlab]

/-- A builder whose `Get` succeeds holds an owner whose group-version-kind resolves. -/
theorem ReportBuilder.Get_ok_inv (ToLower : String → String) (b : ReportBuilder)
    (r : VulnerabilityReport) (h : b.Get ToLower = (r, none)) :
    ∃ o gvk, b.owner = some o ∧ GVKForObject o b.scheme = .ok gvk := by
  cases ho : b.owner with
  | none => simp [ReportBuilder.Get, KindForObject, ho] at h
  | some o =>
    cases hg : GVKForObject o b.scheme with
    | error e => simp [ReportBuilder.Get, KindForObject, ho, hg] at h
    | ok gvk => exact ⟨o, gvk, rfl, hg⟩

/-- The function `upsertOwnerRef` leaves at least one owner reference. -/
theorem upsertOwnerRef_ne_nil (ref : OwnerReference) (refs : List OwnerReference) :
    upsertOwnerRef ref refs ≠ [] := by
  cases refs with
  | nil => simp [upsertOwnerRef]
  | cons r rest =>
    unfold upsertOwnerRef
    split <;> simp

/-- A successful `SetControllerReference` leaves at least one owner reference. -/
theorem SetControllerReference_ne_nil (owner : Option Object) (controlled : ObjectMeta)
    (scheme : Scheme) (m : ObjectMeta)
    (h : SetControllerReference owner controlled scheme = .ok m) :
    m.OwnerReferences ≠ [] := by
  unfold SetControllerReference at h
  split at h
  · simp at h
  · split at h
    · simp at h
    · split at h
      · simp at h
      · dsimp only at h
        split at h
        · split at h
          · cases h
            exact upsertOwnerRef_ne_nil _ _
          · simp at h
        · cases h
          exact upsertOwnerRef_ne_nil _ _

/-- The read of `OwnerReferences[0]` in `Get` is never out of range. -/
theorem ReportBuilder.Get_no_panic (ToLower : String → String) (b : ReportBuilder) :
    (b.Get ToLower).2 ≠ some panicIndexOutOfRange := by
  cases ho : b.owner with
  | none => simp [ReportBuilder.Get, KindForObject, ho, panicIndexOutOfRange]
  | some o =>
    cases hg : GVKForObject o b.scheme with
    | error e => simp [ReportBuilder.Get, KindForObject, ho, hg, panicIndexOutOfRange]
    | ok gvk => simp [ReportBuilder.Get_of_gvk ToLower b o gvk ho hg]

/-- The lookup in a map with a first entry. -/
theorem StringMap.get_cons (k v : String) (m : StringMap) (q : String) :
    StringMap.get ((k, v) :: m) q = if k = q then some v else StringMap.get m q := rfl

/-- C2: for every owner whose kind resolves to `K` and every container name,
`ReportBuilder.Get` returns a report named `lowercase(K) + "-" + owner name + "-" +
container`; two builders whose owners resolve to the same kind and that agree on
the owner name and the container return the same name, whatever their schemes,
owner namespaces, pod-spec hashes and payloads are. -/
theorem C2_report_name (ToLower : String → String) (b1 b2 : ReportBuilder) (o1 o2 : Object)
    (K : String) (ho1 : b1.owner = some o1) (ho2 : b2.owner = some o2)
    (hK1 : KindForObject (some o1) b1.scheme = .ok K)
    (hK2 : KindForObject (some o2) b2.scheme = .ok K) :
    ∃ r1 r2, b1.Get ToLower = (r1, none) ∧ b2.Get ToLower = (r2, none) ∧
      r1.Meta.Name = ToLower K ++ "-" ++ o1.Meta.Name ++ "-" ++ b1.container ∧
      r2.Meta.Name = ToLower K ++ "-" ++ o2.Meta.Name ++ "-" ++ b2.container ∧
      (o1.Meta.Name = o2.Meta.Name → b1.container = b2.container →
        r1.Meta.Name = r2.Meta.Name) := by
  obtain ⟨g1, hg1, hk1⟩ := (KindForObject_ok_iff o1 b1.scheme K).mp hK1
  obtain ⟨g2, hg2, hk2⟩ := (KindForObject_ok_iff o2 b2.scheme K).mp hK2
  refine ⟨_, _, ReportBuilder.Get_of_gvk ToLower b1 o1 g1 ho1 hg1,
    ReportBuilder.Get_of_gvk ToLower b2 o2 g2 ho2 hg2, ?_, ?_, ?_⟩
  · simp [hk1]
  · simp [hk2]
  · intro hn hc
    simp [hk1, hk2, hn, hc]

/-- C2 at the container `app` of the deployment `web`, in two namespaces, with two
hashes and payloads. -/
theorem C2_report_name_witness :
    ∃ r1 r2,
      exampleBuilder.Get asciiToLower = (r1, none) ∧
      exampleBuilderElsewhere.Get asciiToLower = (r2, none) ∧
      r1.Meta.Name = asciiToLower "Deployment" ++ "-" ++ "web" ++ "-" ++ "app" ∧
      r2.Meta.Name = asciiToLower "Deployment" ++ "-" ++ "web" ++ "-" ++ "app" ∧
      ("web" = "web" → "app" = "app" → r1.Meta.Name = r2.Meta.Name) :=
  C2_report_name asciiToLower exampleBuilder exampleBuilderElsewhere exampleDeployment
    exampleDeploymentElsewhere "Deployment" rfl rfl rfl rfl

/-- C7: the labels of a report that `Get` returns are the resource kind (the kind
as resolved), the resource name, the resource namespace and the container name,
and the pod-spec hash exactly when the hash is not empty; no other key is
present. -/
theorem C7_labels (ToLower : String → String) (b : ReportBuilder) (r : VulnerabilityReport)
    (h : b.Get ToLower = (r, none)) :
    ∃ o K, b.owner = some o ∧ KindForObject (some o) b.scheme = .ok K ∧
      r.Meta.Labels =
        [ (LabelResourceKind, K), (LabelResourceName, o.Meta.Name),
          (LabelResourceNamespace, o.Meta.Namespace), (LabelContainerName, b.container) ] ++
        (if b.hash = "" then [] else [(LabelPodSpecHash, b.hash)]) ∧
      ∀ k, r.Meta.Labels.get k =
        if k = LabelResourceKind then some K
        else if k = LabelResourceName then some o.Meta.Name
        else if k = LabelResourceNamespace then some o.Meta.Namespace
        else if k = LabelContainerName then some b.container
        else if k = LabelPodSpecHash ∧ b.hash ≠ "" then some b.hash
        else none := by
  obtain ⟨o, gvk, ho, hg⟩ := ReportBuilder.Get_ok_inv ToLower b r h
  have hr := ReportBuilder.Get_of_gvk ToLower b o gvk ho hg
  rw [h] at hr
  have hr := (Prod.mk.inj hr).1
  refine ⟨o, gvk.Kind, ho, (KindForObject_ok_iff o b.scheme gvk.Kind).mpr ⟨gvk, hg, rfl⟩, ?_, ?_⟩
  · rw [hr]
  · intro k
    rw [hr]
    by_cases hh : b.hash = ""
    · simp only [hh, if_true, List.append_nil, StringMap.get_cons, StringMap.get, ne_eq,
        not_true_eq_false, and_false, if_false, eq_comm]
    · simp only [hh, if_false, List.cons_append, List.nil_append, StringMap.get_cons,
        StringMap.get, ne_eq, not_false_eq_true, and_true, eq_comm]

/-- C7 at the report that `exampleBuilder` builds. -/
theorem C7_labels_witness :
    exampleBuilder.Get asciiToLower = (exampleReport, none) ∧
    ∃ o K, exampleBuilder.owner = some o ∧
      KindForObject (some o) exampleBuilder.scheme = .ok K ∧
      exampleReport.Meta.Labels =
        [ (LabelResourceKind, K), (LabelResourceName, o.Meta.Name),
          (LabelResourceNamespace, o.Meta.Namespace),
          (LabelContainerName, exampleBuilder.container) ] ++
        (if exampleBuilder.hash = "" then [] else [(LabelPodSpecHash, exampleBuilder.hash)]) ∧
      ∀ k, exampleReport.Meta.Labels.get k =
        if k = LabelResourceKind then some K
        else if k = LabelResourceName then some o.Meta.Name
        else if k = LabelResourceNamespace then some o.Meta.Namespace
        else if k = LabelContainerName then some exampleBuilder.container
        else if k = LabelPodSpecHash ∧ exampleBuilder.hash ≠ "" then some exampleBuilder.hash
        else none :=
  ⟨rfl, C7_labels asciiToLower exampleBuilder exampleReport rfl⟩

/-- C8: a report that `Get` returns lies in the namespace of the owner and carries
exactly one owner reference: a controller reference to the owner (its resolved
kind, its name and its UID) with `BlockOwnerDeletion` false. A successful
`SetControllerReference` leaves at least one owner reference, so the read of
`OwnerReferences[0]` is in range. -/
theorem C8_owner_reference (ToLower : String → String) (b : ReportBuilder)
    (r : VulnerabilityReport) (h : b.Get ToLower = (r, none)) :
    ∃ o K, b.owner = some o ∧ KindForObject (some o) b.scheme = .ok K ∧
      r.Meta.Namespace = o.Meta.Namespace ∧
      (∃ ref, r.Meta.OwnerReferences = [ref] ∧ ref.Kind = K ∧ ref.Name = o.Meta.Name ∧
        ref.UID = o.Meta.UID ∧ ref.Controller = some true ∧
        ref.BlockOwnerDeletion = some false) ∧
      (∀ (controlled m : ObjectMeta),
        SetControllerReference (some o) controlled b.scheme = .ok m →
        m.OwnerReferences ≠ []) ∧
      ∀ other : ReportBuilder, (other.Get ToLower).2 ≠ some panicIndexOutOfRange := by
  obtain ⟨o, gvk, ho, hg⟩ := ReportBuilder.Get_ok_inv ToLower b r h
  have hr := ReportBuilder.Get_of_gvk ToLower b o gvk ho hg
  rw [h] at hr
  have hr := (Prod.mk.inj hr).1
  refine ⟨o, gvk.Kind, ho, (KindForObject_ok_iff o b.scheme gvk.Kind).mpr ⟨gvk, hg, rfl⟩,
    ?_, ?_, ?_, ?_⟩
  · rw [hr]
  · rw [hr]
    exact ⟨_, rfl, rfl, rfl, rfl, rfl, rfl⟩
  · intro controlled m hm
    exact SetControllerReference_ne_nil (some o) controlled b.scheme m hm
  · intro other
    exact ReportBuilder.Get_no_panic ToLower other

/-- C8 at the report that `exampleBuilder` builds. -/
theorem C8_owner_reference_witness :
    exampleBuilder.Get asciiToLower = (exampleReport, none) ∧
    ∃ o K, exampleBuilder.owner = some o ∧
      KindForObject (some o) exampleBuilder.scheme = .ok K ∧
      exampleReport.Meta.Namespace = o.Meta.Namespace ∧
      (∃ ref, exampleReport.Meta.OwnerReferences = [ref] ∧ ref.Kind = K ∧
        ref.Name = o.Meta.Name ∧ ref.UID = o.Meta.UID ∧ ref.Controller = some true ∧
        ref.BlockOwnerDeletion = some false) ∧
      (∀ (controlled m : ObjectMeta),
        SetControllerReference (some o) controlled exampleBuilder.scheme = .ok m →
        m.OwnerReferences ≠ []) ∧
      ∀ other : ReportBuilder, (other.Get asciiToLower).2 ≠ some panicIndexOutOfRange :=
  ⟨rfl, C8_owner_reference asciiToLower exampleBuilder exampleReport rfl⟩

/-! ## The name of the scan job -/

/-- Appending to the same text is injective. -/
theorem String.append_right_inj_aux (p a b : String) : p ++ a = p ++ b ↔ a = b := by
  constructor
  · intro h
    have h1 : (p ++ a).data = (p ++ b).data := by rw [h]
    rw [String.data_append, String.data_append] at h1
    exact String.ext (List.append_cancel_left h1)
  · intro h
    rw [h]

/-- There are finitely many characters. -/
theorem Char.finite_aux : Finite Char := by
  apply Finite.of_surjective (fun n : Fin (2 ^ 32) => Char.ofNat n.val)
  intro c
  exact ⟨⟨c.toNat, UInt32.toNat_lt c.val⟩, Char.ofNat_toNat c⟩

/-- There are finitely many strings of a bounded length. -/
theorem String.finite_length_le_aux (bound : Nat) : {s : String | s.length ≤ bound}.Finite := by
  haveI := Char.finite_aux
  have hl := List.finite_length_le Char bound
  refine (hl.image String.mk).subset ?_
  intro s hs
  exact ⟨s.data, hs, rfl⟩

/-- C3 (as amended): `GetScanJobName` is `"scan-vulnerabilityreport-"` followed by
the hash of the kind, the namespace and the name of the owner; owners that agree
on these three get the same Task name, and two owners get different Task names
exactly when `ComputeHash` gives their (kind, namespace, name) different hashes. -/
theorem C3_scan_job_name (ComputeHash : KubeObject → String) (o1 o2 : Object) :
    GetScanJobName ComputeHash o1 =
        "scan-vulnerabilityreport-" ++
          ComputeHash { Kind := o1.TypeMetaKind, Namespace := o1.Meta.Namespace,
                        Name := o1.Meta.Name } ∧
      (o1.TypeMetaKind = o2.TypeMetaKind ∧ o1.Meta.Namespace = o2.Meta.Namespace ∧
          o1.Meta.Name = o2.Meta.Name →
        GetScanJobName ComputeHash o1 = GetScanJobName ComputeHash o2) ∧
      (GetScanJobName ComputeHash o1 ≠ GetScanJobName ComputeHash o2 ↔
        ComputeHash { Kind := o1.TypeMetaKind, Namespace := o1.Meta.Namespace,
                      Name := o1.Meta.Name } ≠
          ComputeHash { Kind := o2.TypeMetaKind, Namespace := o2.Meta.Namespace,
                        Name := o2.Meta.Name }) := by
  refine ⟨rfl, ?_, ?_⟩
  · rintro ⟨hk, hns, hn⟩
    simp [GetScanJobName, hk, hns, hn]
  · unfold GetScanJobName
    rw [Ne, Ne, String.append_right_inj_aux]

/-- C3 (as amended) at the deployment `web` in two namespaces, with the hash of the
example helpers. -/
theorem C3_scan_job_name_witness :
    GetScanJobName (exampleKube "").ComputeHash exampleDeployment =
        "scan-vulnerabilityreport-" ++ "Deployment.ns.web" ∧
    (GetScanJobName (exampleKube "").ComputeHash exampleDeployment ≠
        GetScanJobName (exampleKube "").ComputeHash exampleDeploymentElsewhere ↔
      (exampleKube "").ComputeHash { Kind := "Deployment", Namespace := "ns", Name := "web" } ≠
        (exampleKube "").ComputeHash
          { Kind := "Deployment", Namespace := "other", Name := "web" }) :=
  ⟨(C3_scan_job_name (exampleKube "").ComputeHash exampleDeployment
      exampleDeploymentElsewhere).1,
   (C3_scan_job_name (exampleKube "").ComputeHash exampleDeployment
      exampleDeploymentElsewhere).2.2⟩

/-- C3 (counterexample): no hash with outputs of bounded length, such as a
fixed-width fingerprint, makes `GetScanJobName` tell all owners apart: some two
owners that differ in name get the same Task name. -/
theorem C3_scan_job_name_collides :
    ¬ ∃ (ComputeHash : KubeObject → String) (bound : Nat),
        (∀ k, (ComputeHash k).length ≤ bound) ∧
        ∀ o1 o2 : Object,
          (o1.TypeMetaKind ≠ o2.TypeMetaKind ∨ o1.Meta.Namespace ≠ o2.Meta.Namespace ∨
            o1.Meta.Name ≠ o2.Meta.Name) →
          GetScanJobName ComputeHash o1 ≠ GetScanJobName ComputeHash o2 := by
  rintro ⟨ComputeHash, bound, hb, hd⟩
  let owner : ℕ → Object := fun n =>
    { GoType := "", TypeMetaKind := "",
      Meta := { ObjectMeta.zero with Name := String.mk (List.replicate n 'a') } }
  let f : ℕ → String := fun n =>
    ComputeHash { Kind := (owner n).TypeMetaKind, Namespace := (owner n).Meta.Namespace,
                  Name := (owner n).Meta.Name }
  obtain ⟨n, -, m, -, hne, heq⟩ :=
    Set.Infinite.exists_ne_map_eq_of_mapsTo (f := f) Set.infinite_univ
      (fun n _ => hb _) (String.finite_length_le_aux bound)
  apply hd (owner n) (owner m)
  · right; right
    intro hnm
    apply hne
    have h1 : (String.mk (List.replicate n 'a')).length =
        (String.mk (List.replicate m 'a')).length := by
      simpa [owner] using congrArg String.length hnm
    simpa [String.length] using h1
  · simp only [GetScanJobName]
    exact congrArg _ heq

/-! ## The runnable job -/

/-- The events for which the handler sends nothing do not matter to the first send. -/
theorem findSome?_append_of_none {α β : Type} (f : α → Option β) (pre : List α) (x : α)
    (post : List α) (hpre : ∀ e ∈ pre, f e = none) :
    (pre ++ x :: post).findSome? f = (x :: post).findSome? f := by
  induction pre with
  | nil => rfl
  | cons a as ih =>
    have ha : f a = none := hpre a (by simp)
    simp only [List.cons_append, List.findSome?_cons, ha]
    exact ih (fun e he => hpre e (by simp [he]))

/-- C1: once the submission has succeeded, the first update event whose handler
sends decides `Run`: if the first condition of the matching job is `Complete`,
`Run` returns nil; if it is `Failed`, `Run` returns an error whose message is
`job failed: <Reason>: <Message>`, for every reason and message. -/
theorem C1_first_condition_decides {σ : Type} (scheme : Scheme) (clientset : Clientset σ)
    (job createdJob newJob : Job) (secrets : List Secret) (st st1 : σ)
    (pre post : List InformerObject) (condition : JobCondition) (rest : List JobCondition)
    (hsubmit : runnableJob.submit scheme clientset job secrets st = (.ok createdJob, st1))
    (hpre : ∀ e ∈ pre, runnableJob.UpdateFunc createdJob e = none)
    (huid : newJob.Meta.UID = createdJob.Meta.UID)
    (hcond : newJob.Conditions = condition :: rest) :
    (condition.Type_ = JobComplete →
      runnableJob.Run scheme clientset job secrets st (pre ++ .job newJob :: post) =
        (.returned none, st1)) ∧
    (condition.Type_ = JobFailed →
      ∃ err, runnableJob.Run scheme clientset job secrets st (pre ++ .job newJob :: post) =
          (.returned (some err), st1) ∧
        err.Error = "job failed: " ++ condition.Reason ++ ": " ++ condition.Message) := by
  have hrun : runnableJob.Run scheme clientset job secrets st (pre ++ .job newJob :: post) =
      (runnableJob.await createdJob (pre ++ .job newJob :: post), st1) := by
    simp [runnableJob.Run, hsubmit]
  have hawait : runnableJob.await createdJob (pre ++ .job newJob :: post) =
      runnableJob.await createdJob (.job newJob :: post) := by
    unfold runnableJob.await
    rw [findSome?_append_of_none _ pre _ post hpre]
  rw [hrun, hawait]
  constructor
  · intro hc
    simp [runnableJob.await, runnableJob.UpdateFunc, huid, hcond, hc]
  · intro hf
    have hne : ¬ JobFailed = JobComplete := by decide
    refine ⟨.New ("job failed: " ++ condition.Reason ++ ": " ++ condition.Message), ?_, rfl⟩
    simp [runnableJob.await, runnableJob.UpdateFunc, huid, hcond, hf, hne]

/-- C1 on the in-memory cluster: after an event of another job and an event without
conditions, a `Failed` first condition decides, whatever the second condition and
the later events are. -/
theorem C1_first_condition_decides_witness :
    (∃ err,
      runnableJob.Run exampleScheme Cluster.clientset exampleJob [] Cluster.empty
          ([ .job { exampleCreatedJob "other" with
                    Conditions := [{ Type_ := "Failed", Reason := "r", Message := "m" }] },
             .job { exampleCreatedJob "u" with Conditions := [] } ] ++
            .job { exampleCreatedJob "u" with
                   Conditions :=
                     [ { Type_ := "Failed", Reason := "BackoffLimitExceeded",
                         Message := "Job has reached the specified backoff limit" },
                       { Type_ := "Complete", Reason := "", Message := "" } ] } ::
            [ .job { exampleCreatedJob "u" with
                     Conditions := [{ Type_ := "Complete", Reason := "", Message := "" }] } ]) =
        (.returned (some err),
          { Secrets := [], Jobs := [exampleCreatedJob "u"], Reports := [], Serial := 1 }) ∧
      err.Error =
        "job failed: " ++ "BackoffLimitExceeded" ++ ": " ++
          "Job has reached the specified backoff limit") :=
  (C1_first_condition_decides exampleScheme Cluster.clientset exampleJob
    (exampleCreatedJob "u")
    { exampleCreatedJob "u" with
      Conditions :=
        [ { Type_ := "Failed", Reason := "BackoffLimitExceeded",
            Message := "Job has reached the specified backoff limit" },
          { Type_ := "Complete", Reason := "", Message := "" } ] }
    [] Cluster.empty
    { Secrets := [], Jobs := [exampleCreatedJob "u"], Reports := [], Serial := 1 }
    [ .job { exampleCreatedJob "other" with
             Conditions := [{ Type_ := "Failed", Reason := "r", Message := "m" }] },
      .job { exampleCreatedJob "u" with Conditions := [] } ]
    [ .job { exampleCreatedJob "u" with
             Conditions := [{ Type_ := "Complete", Reason := "", Message := "" }] } ]
    { Type_ := "Failed", Reason := "BackoffLimitExceeded",
      Message := "Job has reached the specified backoff limit" }
    [{ Type_ := "Complete", Reason := "", Message := "" }]
    (by rfl) (by decide) rfl rfl).2 rfl

/-- The first loop stops at the first secret whose creation fails, in the state
left by the creations before it. -/
theorem runnableJob.createSecrets_stops {σ : Type} (clientset : Clientset σ) (ns : String)
    (before : List Secret) (secret : Secret) (after created : List Secret) (st st1 : σ)
    (e : Err)
    (hbefore : runnableJob.createSecrets clientset ns before st = (.ok created, st1))
    (hfail : clientset.CreateSecret st1 ns secret = .error e) :
    runnableJob.createSecrets clientset ns (before ++ secret :: after) st =
      (.error (.Wrap "creating secret" e), st1) := by
  induction before generalizing st created with
  | nil =>
    simp only [runnableJob.createSecrets, Prod.mk.injEq] at hbefore
    obtain ⟨-, rfl⟩ := hbefore
    simp [runnableJob.createSecrets, hfail]
  | cons x xs ih =>
    simp only [List.cons_append, runnableJob.createSecrets] at hbefore ⊢
    cases hx : clientset.CreateSecret st ns x with
    | error e1 => simp [hx] at hbefore
    | ok p =>
      obtain ⟨c, s2⟩ := p
      simp only [hx] at hbefore ⊢
      cases hrest : runnableJob.createSecrets clientset ns xs s2 with
      | mk res s3 =>
        cases res with
        | error e2 => simp [hrest] at hbefore
        | ok done =>
          simp only [hrest, Prod.mk.injEq] at hbefore
          obtain ⟨-, rfl⟩ := hbefore
          have h3 := ih done s2 hrest
          simp [h3]

/-- The second loop stops at the first secret whose ownership update fails, in the
state left by the updates before it. -/
theorem runnableJob.setOwnerReferences_stops {σ : Type} (scheme : Scheme)
    (clientset : Clientset σ) (job : Job) (before : List Secret) (secret : Secret)
    (after updated : List Secret) (st st1 : σ) (err : Err)
    (hbefore : runnableJob.setOwnerReferences scheme clientset job before st =
      (.ok updated, st1))
    (hfail : runnableJob.setOwnerReferences scheme clientset job [secret] st1 =
      (.error err, st1)) :
    runnableJob.setOwnerReferences scheme clientset job (before ++ secret :: after) st =
      (.error err, st1) := by
  induction before generalizing st updated with
  | nil =>
    simp only [runnableJob.setOwnerReferences, Prod.mk.injEq] at hbefore
    obtain ⟨-, rfl⟩ := hbefore
    simp only [List.nil_append]
    unfold runnableJob.setOwnerReferences at hfail ⊢
    cases hs : SetOwnerReference job.toObject secret.Meta scheme with
    | error e1 => simpa [hs] using hfail
    | ok m =>
      simp only [hs] at hfail ⊢
      cases hu : clientset.UpdateSecret st job.Meta.Namespace { secret with Meta := m } with
      | error e2 => simpa [hu] using hfail
      | ok p =>
        obtain ⟨u, s2⟩ := p
        simp [hu, runnableJob.setOwnerReferences] at hfail
  | cons x xs ih =>
    simp only [List.cons_append] at hbefore ⊢
    unfold runnableJob.setOwnerReferences at hbefore ⊢
    cases hs : SetOwnerReference job.toObject x.Meta scheme with
    | error e1 => simp [hs] at hbefore
    | ok m =>
      simp only [hs] at hbefore ⊢
      cases hu : clientset.UpdateSecret st job.Meta.Namespace { x with Meta := m } with
      | error e2 => simp [hu] at hbefore
      | ok p =>
        obtain ⟨u, s2⟩ := p
        simp only [hu] at hbefore ⊢
        cases hrest : runnableJob.setOwnerReferences scheme clientset job xs s2 with
        | mk res s3 =>
          cases res with
          | error e3 => simp [hrest] at hbefore
          | ok done =>
            simp only [hrest, Prod.mk.injEq] at hbefore
            obtain ⟨-, rfl⟩ := hbefore
            have h3 := ih done s2 hrest
            simp [h3]

/-- The two ways in which the ownership update of one secret fails. -/
theorem runnableJob.setOwnerReferences_single_fail {σ : Type} (scheme : Scheme)
    (clientset : Clientset σ) (job : Job) (secret : Secret) (st : σ) (err e : Err)
    (h : (SetOwnerReference job.toObject secret.Meta scheme = .error e ∧
          err = .Wrap "setting owner reference" e) ∨
        (∃ m, SetOwnerReference job.toObject secret.Meta scheme = .ok m ∧
          clientset.UpdateSecret st job.Meta.Namespace { secret with Meta := m } = .error e ∧
          err = .Wrap "updating secret" e)) :
    runnableJob.setOwnerReferences scheme clientset job [secret] st = (.error err, st) := by
  rcases h with ⟨hs, rfl⟩ | ⟨m, hs, hu, rfl⟩
  · simp [runnableJob.setOwnerReferences, hs]
  · simp [runnableJob.setOwnerReferences, hs, hu]

/-- C6: when `Run` fails at a submission step, it returns the wrapped error of that
step without waiting for any event, and the cluster state it leaves is the state
after the steps that succeeded before the failing one: (a) after the creation of
the secrets before the failing one, when creating a secret fails; (b) after the
creation of all secrets, when creating the job fails; (c) after the creation of
all secrets and of the job and the ownership updates before the failing one, when
setting or persisting the owner reference of a secret fails. -/
theorem C6_submission_failure {σ : Type} (scheme : Scheme) (clientset : Clientset σ)
    (job : Job) (st : σ) (events : List InformerObject) :
    (∀ (before : List Secret) (secret : Secret) (after created : List Secret) (st1 : σ)
        (e : Err),
      runnableJob.createSecrets clientset job.Meta.Namespace before st = (.ok created, st1) →
      clientset.CreateSecret st1 job.Meta.Namespace secret = .error e →
      runnableJob.Run scheme clientset job (before ++ secret :: after) st events =
        (.returned (some (.Wrap "creating secret" e)), st1)) ∧
    (∀ (secrets created : List Secret) (st1 : σ) (e : Err),
      runnableJob.createSecrets clientset job.Meta.Namespace secrets st = (.ok created, st1) →
      clientset.CreateJob st1 job.Meta.Namespace job = .error e →
      runnableJob.Run scheme clientset job secrets st events =
        (.returned (some (.Wrap "creating job" e)), st1)) ∧
    (∀ (secrets before : List Secret) (secret : Secret) (after updated : List Secret)
        (createdJob : Job) (st1 st2 st3 : σ) (err e : Err),
      runnableJob.createSecrets clientset job.Meta.Namespace secrets st =
        (.ok (before ++ secret :: after), st1) →
      clientset.CreateJob st1 job.Meta.Namespace job = .ok (createdJob, st2) →
      runnableJob.setOwnerReferences scheme clientset createdJob before st2 =
        (.ok updated, st3) →
      ((SetOwnerReference createdJob.toObject secret.Meta scheme = .error e ∧
          err = .Wrap "setting owner reference" e) ∨
        (∃ m, SetOwnerReference createdJob.toObject secret.Meta scheme = .ok m ∧
          clientset.UpdateSecret st3 createdJob.Meta.Namespace { secret with Meta := m } =
            .error e ∧
          err = .Wrap "updating secret" e)) →
      runnableJob.Run scheme clientset job secrets st events =
        (.returned (some err), st3)) := by
  refine ⟨?_, ?_, ?_⟩
  · intro before secret after created st1 e hbefore hfail
    have h := runnableJob.createSecrets_stops clientset job.Meta.Namespace before secret after
      created st st1 e hbefore hfail
    simp [runnableJob.Run, runnableJob.submit, h]
  · intro secrets created st1 e hall hfail
    simp [runnableJob.Run, runnableJob.submit, hall, hfail]
  · intro secrets before secret after updated createdJob st1 st2 st3 err e hall hjob hbefore
      hfail
    have h1 := runnableJob.setOwnerReferences_single_fail scheme clientset createdJob secret
      st3 err e hfail
    have h := runnableJob.setOwnerReferences_stops scheme clientset createdJob before secret
      after updated st2 st3 err hbefore h1
    simp [runnableJob.Run, runnableJob.submit, hall, hjob, h]

/-- C6 on the in-memory cluster: a duplicate secret stops `Run` after the first
secret, with no job; a conflict on the update of the secret `b` stops `Run` with
the job created, the secret `a` owned by it, and `b` and `c` without owner. -/
theorem C6_submission_failure_witness :
    runnableJob.Run exampleScheme Cluster.clientset exampleJob
        ([exampleSecret "a"] ++ exampleSecret "a" :: [exampleSecret "b"]) Cluster.empty [] =
      (.returned (some (.Wrap "creating secret"
          (.Status .AlreadyExists "secrets a already exists"))),
        { Secrets := [exampleCreatedSecret "a" "u"], Jobs := [], Reports := [], Serial := 1 }) ∧
    runnableJob.Run exampleScheme (Cluster.conflictingClientset "b") exampleJob
        [exampleSecret "a", exampleSecret "b", exampleSecret "c"] Cluster.empty [] =
      (.returned (some (.Wrap "updating secret"
          (.Status .Conflict "secrets b has been modified"))),
        { Secrets := [ exampleOwnedSecret "a" "u" "uuuu", exampleCreatedSecret "b" "uu",
                       exampleCreatedSecret "c" "uuu" ],
          Jobs := [exampleCreatedJob "uuuu"], Reports := [], Serial := 4 }) :=
  ⟨(C6_submission_failure exampleScheme Cluster.clientset exampleJob Cluster.empty []).1
      [exampleSecret "a"] (exampleSecret "a") [exampleSecret "b"]
      [exampleCreatedSecret "a" "u"]
      { Secrets := [exampleCreatedSecret "a" "u"], Jobs := [], Reports := [], Serial := 1 }
      (.Status .AlreadyExists "secrets a already exists") (by rfl) (by rfl),
   (C6_submission_failure exampleScheme (Cluster.conflictingClientset "b") exampleJob
      Cluster.empty []).2.2
      [exampleSecret "a", exampleSecret "b", exampleSecret "c"]
      [exampleCreatedSecret "a" "u"] (exampleCreatedSecret "b" "uu")
      [exampleCreatedSecret "c" "uuu"] [exampleOwnedSecret "a" "u" "uuuu"]
      (exampleCreatedJob "uuuu")
      { Secrets := [ exampleCreatedSecret "a" "u", exampleCreatedSecret "b" "uu",
                     exampleCreatedSecret "c" "uuu" ],
        Jobs := [], Reports := [], Serial := 3 }
      { Secrets := [ exampleCreatedSecret "a" "u", exampleCreatedSecret "b" "uu",
                     exampleCreatedSecret "c" "uuu" ],
        Jobs := [exampleCreatedJob "uuuu"], Reports := [], Serial := 4 }
      { Secrets := [ exampleOwnedSecret "a" "u" "uuuu", exampleCreatedSecret "b" "uu",
                     exampleCreatedSecret "c" "uuu" ],
        Jobs := [exampleCreatedJob "uuuu"], Reports := [], Serial := 4 }
      (.Wrap "updating secret" (.Status .Conflict "secrets b has been modified"))
      (.Status .Conflict "secrets b has been modified")
      (by rfl) (by rfl) (by rfl)
      (Or.inr ⟨{ (exampleCreatedSecret "b" "uu").Meta with
                 OwnerReferences := [exampleJobReference "uuuu"] }, by rfl, by rfl, rfl⟩)⟩

/-! ## Reading and writing reports -/

/-- C4: when the lookup by the name and the namespace of the report finds a record,
`createOrUpdate` persists, with one `Update`, the found record with its labels and
its payload replaced by those of the given report and every other field kept (name,
namespace, UID, resource version, annotations, owner references); the rest of the
metadata of the given report plays no part. -/
theorem C4_update_keeps_existing {σ : Type} (r : ObjectResolver σ) (st : σ)
    (report existing : VulnerabilityReport)
    (hget : r.Client.Get st report.Meta.Name report.Meta.Namespace = .ok existing) :
    ∃ copied : VulnerabilityReport,
      readWriter.createOrUpdate r st report =
        writeOutcome st (r.Client.Update st copied) ∧
      copied.Meta.Labels = report.Meta.Labels ∧ copied.Report = report.Report ∧
      copied.Meta.Name = existing.Meta.Name ∧
      copied.Meta.Namespace = existing.Meta.Namespace ∧
      copied.Meta.UID = existing.Meta.UID ∧
      copied.Meta.ResourceVersion = existing.Meta.ResourceVersion ∧
      copied.Meta.Annotations = existing.Meta.Annotations ∧
      copied.Meta.OwnerReferences = existing.Meta.OwnerReferences ∧
      copied =
        { Meta := { existing.Meta with Labels := report.Meta.Labels },
          Report := report.Report } ∧
      ∀ other : VulnerabilityReport,
        other.Meta.Name = report.Meta.Name → other.Meta.Namespace = report.Meta.Namespace →
        other.Meta.Labels = report.Meta.Labels → other.Report = report.Report →
        readWriter.createOrUpdate r st other = readWriter.createOrUpdate r st report := by
  refine ⟨{ Meta := { existing.Meta with Labels := report.Meta.Labels },
            Report := report.Report }, ?_, rfl, rfl, rfl, rfl, rfl, rfl, rfl, rfl, rfl, ?_⟩
  · simp only [readWriter.createOrUpdate, hget]
  · intro other hn hns hl hp
    simp only [readWriter.createOrUpdate, hn, hns, hl, hp]
    simp only [hget]

/-- C4 on the in-memory cluster: the stored record keeps its UID, resource version,
annotations and owner reference, and takes the labels and the payload of the given
report. -/
theorem C4_update_keeps_existing_witness :
    readWriter.createOrUpdate Cluster.objectResolver exampleClusterWithReport
        exampleRescanReport =
      (none,
        { exampleClusterWithReport with
          Reports :=
            [{ Meta := { exampleStoredReport.Meta with Labels := exampleRescanReport.Meta.Labels },
               Report := "new" }] }) ∧
    ∃ copied : VulnerabilityReport,
      readWriter.createOrUpdate Cluster.objectResolver exampleClusterWithReport
          exampleRescanReport =
        writeOutcome exampleClusterWithReport
          (Cluster.objectResolver.Client.Update exampleClusterWithReport copied) ∧
      copied.Meta.Labels = exampleRescanReport.Meta.Labels ∧
      copied.Report = exampleRescanReport.Report ∧
      copied.Meta.Name = exampleStoredReport.Meta.Name ∧
      copied.Meta.Namespace = exampleStoredReport.Meta.Namespace ∧
      copied.Meta.UID = exampleStoredReport.Meta.UID ∧
      copied.Meta.ResourceVersion = exampleStoredReport.Meta.ResourceVersion ∧
      copied.Meta.Annotations = exampleStoredReport.Meta.Annotations ∧
      copied.Meta.OwnerReferences = exampleStoredReport.Meta.OwnerReferences ∧
      copied =
        { Meta := { exampleStoredReport.Meta with Labels := exampleRescanReport.Meta.Labels },
          Report := exampleRescanReport.Report } ∧
      ∀ other : VulnerabilityReport,
        other.Meta.Name = exampleRescanReport.Meta.Name →
        other.Meta.Namespace = exampleRescanReport.Meta.Namespace →
        other.Meta.Labels = exampleRescanReport.Meta.Labels →
        other.Report = exampleRescanReport.Report →
        readWriter.createOrUpdate Cluster.objectResolver exampleClusterWithReport other =
          readWriter.createOrUpdate Cluster.objectResolver exampleClusterWithReport
            exampleRescanReport :=
  ⟨by rfl,
   C4_update_keeps_existing Cluster.objectResolver exampleClusterWithReport exampleRescanReport
     exampleStoredReport (by rfl)⟩

/-- C10: when the lookup reports not-found, `createOrUpdate` creates the report as
given; when the lookup fails with another error, it returns that error unchanged and
leaves the cluster as it was, whatever `Create` and `Update` would do. -/
theorem C10_lookup_failure {σ : Type} (r : ObjectResolver σ) (st : σ)
    (report : VulnerabilityReport) (err : Err)
    (hget : r.Client.Get st report.Meta.Name report.Meta.Namespace = .error err) :
    (IsNotFound err = true →
      readWriter.createOrUpdate r st report =
        writeOutcome st (r.Client.Create st report)) ∧
    (IsNotFound err = false →
      readWriter.createOrUpdate r st report = (some err, st) ∧
      ∀ (update create : σ → VulnerabilityReport → Except Err σ),
        readWriter.createOrUpdate
          { r with Client := { r.Client with Update := update, Create := create } } st report =
          (some err, st)) := by
  constructor
  · intro hnf
    simp [readWriter.createOrUpdate, hget, hnf]
  · intro hnf
    constructor
    · simp [readWriter.createOrUpdate, hget, hnf]
    · intro update create
      simp [readWriter.createOrUpdate, hget, hnf]

/-- C10 on the in-memory cluster: a report that is not stored is created; while the
API server is unavailable, the error of the lookup is returned and nothing is
written. -/
theorem C10_lookup_failure_witness :
    readWriter.createOrUpdate Cluster.objectResolver Cluster.empty exampleReport =
      writeOutcome Cluster.empty
        (Cluster.objectResolver.Client.Create Cluster.empty exampleReport) ∧
    readWriter.createOrUpdate unavailableResolver exampleClusterWithReport exampleReport =
      (some (.Status (.Other "ServiceUnavailable")
        "the server is currently unable to handle the request"), exampleClusterWithReport) :=
  ⟨(C10_lookup_failure Cluster.objectResolver Cluster.empty exampleReport
      (.Status .NotFound "vulnerabilityreports deployment-web-app not found") (by rfl)).1
      (by rfl),
   ((C10_lookup_failure unavailableResolver exampleClusterWithReport exampleReport
      (.Status (.Other "ServiceUnavailable")
        "the server is currently unable to handle the request") (by rfl)).2 (by rfl)).1⟩

/-- C9: `FindByOwnerInHierarchy` returns the reports of `FindByOwner` when there are
some, without resolving the related replica set (whatever the resolution would
give, also a failure); when there are none and the owner is a Deployment or a Pod,
it resolves the name of the related replica set and returns `FindByOwner` of the
ReplicaSet of that name in the namespace of the owner. -/
theorem C9_find_in_hierarchy {σ : Type} (r : ObjectResolver σ) (st : σ) (owner : KubeObject) :
    (∀ reports : List VulnerabilityReport,
      readWriter.FindByOwner r st owner = .ok reports → reports ≠ [] →
      readWriter.FindByOwnerInHierarchy r st owner = .ok reports ∧
      ∀ resolve : σ → KubeObject → Except Err String,
        readWriter.FindByOwnerInHierarchy { r with GetRelatedReplicasetName := resolve } st
          owner = .ok reports) ∧
    (∀ rsName : String,
      readWriter.FindByOwner r st owner = .ok [] →
      owner.Kind = KindDeployment ∨ owner.Kind = KindPod →
      r.GetRelatedReplicasetName st owner = .ok rsName →
      readWriter.FindByOwnerInHierarchy r st owner =
        readWriter.FindByOwner r st
          { Kind := KindReplicaSet, Name := rsName, Namespace := owner.Namespace }) := by
  constructor
  · intro reports hfind hne
    have hlen : ¬ reports.length = 0 := by
      intro h0
      exact hne (List.length_eq_zero.mp h0)
    have hfind1 : ∀ resolve : σ → KubeObject → Except Err String,
        readWriter.FindByOwner { r with GetRelatedReplicasetName := resolve } st owner =
          .ok reports := fun _ => hfind
    constructor
    · simp [readWriter.FindByOwnerInHierarchy, hfind, hlen]
    · intro resolve
      simp [readWriter.FindByOwnerInHierarchy, hfind1 resolve, hlen]
  · intro rsName hfind hkind hres
    unfold readWriter.FindByOwnerInHierarchy
    simp only [hfind, List.length_nil, true_and, hkind, if_true, hres]
    cases readWriter.FindByOwner r st
      { Kind := KindReplicaSet, Name := rsName, Namespace := owner.Namespace } <;> rfl

/-- C9 on the in-memory cluster: a deployment without reports gets the reports of
its related replica set, and the replica set gets its own reports. -/
theorem C9_find_in_hierarchy_witness :
    readWriter.FindByOwnerInHierarchy exampleResolver exampleClusterWithReplicaSetReport
        exampleWorkload =
      readWriter.FindByOwner exampleResolver exampleClusterWithReplicaSetReport
        { Kind := KindReplicaSet, Name := "web-5d4f", Namespace := "ns" } ∧
    readWriter.FindByOwnerInHierarchy exampleResolver exampleClusterWithReplicaSetReport
        { Kind := KindReplicaSet, Name := "web-5d4f", Namespace := "ns" } =
      .ok [exampleReplicaSetReport] :=
  ⟨(C9_find_in_hierarchy exampleResolver exampleClusterWithReplicaSetReport exampleWorkload).2
      "web-5d4f" (by rfl) (Or.inl rfl) (by rfl),
   ((C9_find_in_hierarchy exampleResolver exampleClusterWithReplicaSetReport
      { Kind := KindReplicaSet, Name := "web-5d4f", Namespace := "ns" }).1
      [exampleReplicaSetReport] (by rfl) (by simp)).1⟩

/-! ## The scanner -/

/-- One pass of the loop of `getVulnerabilityReportsByScanJob`. -/
theorem Scanner.collectReports_cons {σ : Type} (ToLower : String → String) (s : Scanner σ)
    (st : σ) (job : Job) (owner : Object) (podSpecHash : String) (entry : String × String)
    (rest : List (String × String)) (acc : List VulnerabilityReport) :
    Scanner.collectReports ToLower s st job owner podSpecHash (entry :: rest) acc =
      match Scanner.containerReport ToLower s st job owner podSpecHash entry with
      | .error err => ([], some err)
      | .ok report =>
        Scanner.collectReports ToLower s st job owner podSpecHash rest (acc ++ [report]) := by
  obtain ⟨containerName, containerImage⟩ := entry
  simp only [Scanner.collectReports, Scanner.containerReport]
  cases s.kube.GetLogsByJobAndContainerName st job containerName with
  | error e => rfl
  | ok logs =>
    simp only
    cases s.plugin.ParseVulnerabilityReportData containerImage logs with
    | error e => rfl
    | ok result =>
      simp only
      cases ReportBuilder.Get ToLower
          ((((NewReportBuilder s.scheme).Controller owner).Container containerName).Data
            result |>.PodSpecHash podSpecHash) with
      | mk report err =>
        cases err <;> rfl

/-- The loop returns no report with an error. -/
theorem Scanner.collectReports_error_nil {σ : Type} (ToLower : String → String)
    (s : Scanner σ) (st : σ) (job : Job) (owner : Object) (podSpecHash : String)
    (entries : List (String × String)) (acc reports : List VulnerabilityReport) (err : Err)
    (h : Scanner.collectReports ToLower s st job owner podSpecHash entries acc =
      (reports, some err)) : reports = [] := by
  induction entries generalizing acc with
  | nil => simp [Scanner.collectReports] at h
  | cons entry rest ih =>
    rw [Scanner.collectReports_cons] at h
    cases hc : Scanner.containerReport ToLower s st job owner podSpecHash entry with
    | error e =>
      simp only [hc, Prod.mk.injEq] at h
      exact h.1.symm
    | ok report =>
      simp only [hc] at h
      exact ih _ h

/-- The loop returns no report and an error when a step fails for some entry. -/
theorem Scanner.collectReports_fails {σ : Type} (ToLower : String → String)
    (s : Scanner σ) (st : σ) (job : Job) (owner : Object) (podSpecHash : String)
    (entries : List (String × String)) (acc : List VulnerabilityReport)
    (hfail : ∃ entry ∈ entries,
      Scanner.containerFails ToLower s st job owner podSpecHash entry = true) :
    ∃ err, Scanner.collectReports ToLower s st job owner podSpecHash entries acc =
      ([], some err) := by
  induction entries generalizing acc with
  | nil =>
    obtain ⟨entry, hmem, -⟩ := hfail
    simp at hmem
  | cons entry rest ih =>
    rw [Scanner.collectReports_cons]
    cases hc : Scanner.containerReport ToLower s st job owner podSpecHash entry with
    | error e => exact ⟨e, rfl⟩
    | ok report =>
      simp only
      apply ih
      obtain ⟨bad, hmem, hbad⟩ := hfail
      rcases List.mem_cons.mp hmem with rfl | hrest
      · simp [Scanner.containerFails, hc] at hbad
      · exact ⟨bad, hrest, hbad⟩

/-- Without an error, the loop appends the report built for each entry, in order. -/
theorem Scanner.collectReports_ok {σ : Type} (ToLower : String → String)
    (s : Scanner σ) (st : σ) (job : Job) (owner : Object) (podSpecHash : String)
    (entries : List (String × String)) (acc reports : List VulnerabilityReport)
    (h : Scanner.collectReports ToLower s st job owner podSpecHash entries acc =
      (reports, none)) :
    ∃ built, reports = acc ++ built ∧
      List.Forall₂
        (fun entry report =>
          Scanner.containerReport ToLower s st job owner podSpecHash entry = .ok report)
        entries built := by
  induction entries generalizing acc with
  | nil =>
    simp only [Scanner.collectReports, Prod.mk.injEq, and_true] at h
    exact ⟨[], by simp [h], List.Forall₂.nil⟩
  | cons entry rest ih =>
    rw [Scanner.collectReports_cons] at h
    cases hc : Scanner.containerReport ToLower s st job owner podSpecHash entry with
    | error e => simp [hc] at h
    | ok report =>
      simp only [hc] at h
      obtain ⟨built, hb, hall⟩ := ih _ h
      exact ⟨report :: built, by simp [hb], List.Forall₂.cons hc hall⟩

/-- The method `getVulnerabilityReportsByScanJob` returns no report with an error. -/
theorem Scanner.getVulnerabilityReportsByScanJob_error_nil {σ : Type}
    (ToLower : String → String) (s : Scanner σ) (st : σ) (job : Job) (owner : Object)
    (reports : List VulnerabilityReport) (err : Err)
    (h : Scanner.getVulnerabilityReportsByScanJob ToLower s st job owner =
      (reports, some err)) : reports = [] := by
  unfold Scanner.getVulnerabilityReportsByScanJob at h
  split at h
  · simp only [Prod.mk.injEq] at h
    exact h.1.symm
  · split at h
    · simp only [Prod.mk.injEq] at h
      exact h.1.symm
    · exact Scanner.collectReports_error_nil ToLower s st job owner _ _ [] reports err h

/-- What `Scan` returns once the job has run to completion. -/
theorem Scanner.Scan_of_run {σ : Type} (ToLower : String → String) (s : Scanner σ) (st st2 : σ)
    (events : List InformerObject) (workload : KubeObject) (owner : Object) (spec : PodSpec)
    (credentials : Credentials) (job : Job) (secrets : List Secret)
    (ho : s.objectResolver.GetObjectFromPartialObject st workload = .ok owner)
    (hs : s.kube.GetPodSpec owner = .ok spec)
    (hc : s.getCredentials st spec workload.Namespace = .ok credentials)
    (hp : s.prepareScanJob owner spec credentials = .ok (job, secrets))
    (hr : runner.Run s.scheme s.clientset job secrets st events = (.returned none, st2)) :
    Scanner.Scan ToLower s st events workload =
      (.returned (s.getVulnerabilityReportsByScanJob ToLower st2 job owner).1
          (s.getVulnerabilityReportsByScanJob ToLower st2 job owner).2,
        s.deleteScanJob st2 job) := by
  simp only [Scanner.Scan, ho, hs, hc, hp, hr]

/-- The steps that have succeeded when `Scan` returns. -/
theorem Scanner.Scan_returned_inv {σ : Type} (ToLower : String → String) (s : Scanner σ)
    (st st1 : σ) (events : List InformerObject) (workload : KubeObject)
    (reports : List VulnerabilityReport) (err : GoError)
    (h : Scanner.Scan ToLower s st events workload = (.returned reports err, st1)) :
    (reports = [] ∧ err ≠ none) ∨
    ∃ owner spec credentials job secrets st2,
      s.objectResolver.GetObjectFromPartialObject st workload = .ok owner ∧
      s.kube.GetPodSpec owner = .ok spec ∧
      s.getCredentials st spec workload.Namespace = .ok credentials ∧
      s.prepareScanJob owner spec credentials = .ok (job, secrets) ∧
      runner.Run s.scheme s.clientset job secrets st events = (.returned none, st2) ∧
      s.getVulnerabilityReportsByScanJob ToLower st2 job owner = (reports, err) ∧
      st1 = s.deleteScanJob st2 job := by
  unfold Scanner.Scan at h
  cases ho : s.objectResolver.GetObjectFromPartialObject st workload with
  | error e =>
    simp only [ho, Prod.mk.injEq, ScanOutcome.returned.injEq] at h
    exact Or.inl ⟨h.1.1.symm, by rw [← h.1.2]; simp⟩
  | ok owner =>
    simp only [ho] at h
    cases hs : s.kube.GetPodSpec owner with
    | error e =>
      simp only [hs, Prod.mk.injEq, ScanOutcome.returned.injEq] at h
      exact Or.inl ⟨h.1.1.symm, by rw [← h.1.2]; simp⟩
    | ok spec =>
      simp only [hs] at h
      cases hc : s.getCredentials st spec workload.Namespace with
      | error e =>
        simp only [hc, Prod.mk.injEq, ScanOutcome.returned.injEq] at h
        exact Or.inl ⟨h.1.1.symm, by rw [← h.1.2]; simp⟩
      | ok credentials =>
        simp only [hc] at h
        cases hp : s.prepareScanJob owner spec credentials with
        | error e =>
          simp only [hp, Prod.mk.injEq, ScanOutcome.returned.injEq] at h
          exact Or.inl ⟨h.1.1.symm, by rw [← h.1.2]; simp⟩
        | ok p =>
          obtain ⟨job, secrets⟩ := p
          simp only [hp] at h
          cases hr : runner.Run s.scheme s.clientset job secrets st events with
          | mk outcome st2 =>
            cases outcome with
            | blocked => simp [hr] at h
            | returned e =>
              cases e with
              | some e1 =>
                simp only [hr, Prod.mk.injEq, ScanOutcome.returned.injEq] at h
                exact Or.inl ⟨h.1.1.symm, by rw [← h.1.2]; simp⟩
              | none =>
                simp only [hr, Prod.mk.injEq, ScanOutcome.returned.injEq] at h
                refine Or.inr ⟨owner, spec, credentials, job, secrets, st2, rfl, hs, hc, hp,
                  hr, ?_, h.2.symm⟩
                exact Prod.ext h.1.1 h.1.2

/-- C5: `Scan` is all-or-nothing. Whenever it returns a non-nil error it returns no
report; when the job has run to completion and log retrieval, parsing or report
building fails for some container of the container images, it returns no report and
a non-nil error, whatever was built for the other containers; and whenever it
returns a nil error, it returns one report for each container, in their order, each
the report built for that container. -/
theorem C5_all_or_nothing {σ : Type} (ToLower : String → String) (s : Scanner σ) (st : σ)
    (events : List InformerObject) (workload : KubeObject) :
    (∀ (reports : List VulnerabilityReport) (err : Err) (st1 : σ),
      Scanner.Scan ToLower s st events workload = (.returned reports (some err), st1) →
      reports = []) ∧
    (∀ (owner : Object) (spec : PodSpec) (credentials : Credentials) (job : Job)
        (secrets : List Secret) (st2 : σ) (containerImages : ContainerImages)
        (podSpecHash : String),
      s.objectResolver.GetObjectFromPartialObject st workload = .ok owner →
      s.kube.GetPodSpec owner = .ok spec →
      s.getCredentials st spec workload.Namespace = .ok credentials →
      s.prepareScanJob owner spec credentials = .ok (job, secrets) →
      runner.Run s.scheme s.clientset job secrets st events = (.returned none, st2) →
      s.kube.GetContainerImagesFromJob job = .ok containerImages →
      job.Meta.Labels.get LabelPodSpecHash = some podSpecHash →
      (∃ entry ∈ containerImages,
        Scanner.containerFails ToLower s st2 job owner podSpecHash entry = true) →
      ∃ err, Scanner.Scan ToLower s st events workload =
        (.returned [] (some err), s.deleteScanJob st2 job)) ∧
    (∀ (reports : List VulnerabilityReport) (st1 : σ),
      Scanner.Scan ToLower s st events workload = (.returned reports none, st1) →
      ∃ owner spec credentials job secrets st2 containerImages podSpecHash,
        s.objectResolver.GetObjectFromPartialObject st workload = .ok owner ∧
        s.kube.GetPodSpec owner = .ok spec ∧
        s.getCredentials st spec workload.Namespace = .ok credentials ∧
        s.prepareScanJob owner spec credentials = .ok (job, secrets) ∧
        runner.Run s.scheme s.clientset job secrets st events = (.returned none, st2) ∧
        s.kube.GetContainerImagesFromJob job = .ok containerImages ∧
        job.Meta.Labels.get LabelPodSpecHash = some podSpecHash ∧
        reports.length = containerImages.length ∧
        List.Forall₂
          (fun entry report =>
            Scanner.containerReport ToLower s st2 job owner podSpecHash entry = .ok report)
          containerImages reports) := by
  refine ⟨?_, ?_, ?_⟩
  · intro reports err st1 h
    rcases Scanner.Scan_returned_inv ToLower s st st1 events workload reports (some err) h with
      ⟨hnil, -⟩ | ⟨owner, spec, credentials, job, secrets, st2, -, -, -, -, -, hg, -⟩
    · exact hnil
    · exact Scanner.getVulnerabilityReportsByScanJob_error_nil ToLower s st2 job owner reports
        err hg
  · intro owner spec credentials job secrets st2 containerImages podSpecHash ho hs hc hp hr hi
      hl hfail
    obtain ⟨err, herr⟩ := Scanner.collectReports_fails ToLower s st2 job owner podSpecHash
      containerImages [] hfail
    refine ⟨err, ?_⟩
    rw [Scanner.Scan_of_run ToLower s st st2 events workload owner spec credentials job secrets
      ho hs hc hp hr]
    simp only [Scanner.getVulnerabilityReportsByScanJob, hi, hl, herr]
  · intro reports st1 h
    rcases Scanner.Scan_returned_inv ToLower s st st1 events workload reports none h with
      ⟨-, hne⟩ | ⟨owner, spec, credentials, job, secrets, st2, ho, hs, hc, hp, hr, hg, -⟩
    · exact absurd rfl hne
    · unfold Scanner.getVulnerabilityReportsByScanJob at hg
      cases hi : s.kube.GetContainerImagesFromJob job with
      | error e => simp [hi] at hg
      | ok containerImages =>
        simp only [hi] at hg
        cases hl : job.Meta.Labels.get LabelPodSpecHash with
        | none => simp [hl] at hg
        | some podSpecHash =>
          simp only [hl] at hg
          obtain ⟨built, hb, hall⟩ := Scanner.collectReports_ok ToLower s st2 job owner
            podSpecHash containerImages [] reports hg
          simp only [List.nil_append] at hb
          subst hb
          exact ⟨owner, spec, credentials, job, secrets, st2, containerImages, podSpecHash,
            ho, hs, hc, hp, hr, hi, hl, hall.length_eq.symm, hall⟩

/-- C5 on the example scanner: the logs of the second container `sidecar` cannot be
read, so `Scan` returns no report and an error, although the report of the first
container `app` builds. -/
theorem C5_all_or_nothing_witness :
    (∃ err,
      Scanner.Scan asciiToLower (exampleScanner "sidecar") Cluster.empty [exampleCompleteEvent]
          exampleWorkload =
        (.returned [] (some err),
          (exampleScanner "sidecar").deleteScanJob exampleClusterAfterRun exampleScanJob)) ∧
    Scanner.containerFails asciiToLower (exampleScanner "sidecar") exampleClusterAfterRun
        exampleScanJob exampleDeployment "nginx:1.21envoy:1.20" ("app", "nginx:1.21") = false :=
  ⟨(C5_all_or_nothing asciiToLower (exampleScanner "sidecar") Cluster.empty
      [exampleCompleteEvent] exampleWorkload).2.1
      exampleDeployment exampleOwnerPodSpec [] exampleScanJob [] exampleClusterAfterRun
      exampleContainerImages "nginx:1.21envoy:1.20" (by rfl) (by rfl) (by rfl) (by rfl) (by rfl)
      (by rfl) (by rfl) ⟨("sidecar", "envoy:1.20"), by decide, by rfl⟩,
   by rfl⟩

/-! ## The completion of the runnable job -/

/-- C18: the update handler sends on the completion channel exactly when the
updated object is a job with the UID of the submitted job, with at least one
condition, whose first condition is `Complete` or `Failed`; what it sends is nil for
`Complete` and the failure error for `Failed`. An event of another UID sends
nothing, whatever its conditions are, and so does a job whose first condition is of
another type, whatever the later conditions are. -/
theorem C18_handler_signals_iff (job : Job) (newObj : InformerObject) :
    (runnableJob.UpdateFunc job newObj ≠ none ↔
      ∃ (newJob : Job) (condition : JobCondition) (rest : List JobCondition),
        newObj = .job newJob ∧ newJob.Meta.UID = job.Meta.UID ∧
        newJob.Conditions = condition :: rest ∧
        (condition.Type_ = JobComplete ∨ condition.Type_ = JobFailed)) ∧
    (∀ (newJob : Job) (condition : JobCondition) (rest : List JobCondition),
      newObj = .job newJob → newJob.Meta.UID = job.Meta.UID →
      newJob.Conditions = condition :: rest →
      (condition.Type_ = JobComplete → runnableJob.UpdateFunc job newObj = some none) ∧
      (condition.Type_ = JobFailed →
        runnableJob.UpdateFunc job newObj =
          some (some (.New ("job failed: " ++ condition.Reason ++ ": " ++
            condition.Message))))) ∧
    (∀ newJob : Job, newObj = .job newJob → newJob.Meta.UID ≠ job.Meta.UID →
      runnableJob.UpdateFunc job newObj = none) ∧
    (∀ (newJob : Job) (condition : JobCondition) (rest : List JobCondition),
      newObj = .job newJob → newJob.Conditions = condition :: rest →
      condition.Type_ ≠ JobComplete → condition.Type_ ≠ JobFailed →
      runnableJob.UpdateFunc job newObj = none) := by
  have hne : ¬ JobFailed = JobComplete := by decide
  refine ⟨?_, ?_, ?_, ?_⟩
  · constructor
    · intro h
      cases newObj with
      | other t => simp [runnableJob.UpdateFunc] at h
      | job newJob =>
        unfold runnableJob.UpdateFunc at h
        by_cases huid : job.Meta.UID = newJob.Meta.UID
        · cases hc : newJob.Conditions with
          | nil => simp [huid, hc] at h
          | cons condition rest =>
            refine ⟨newJob, condition, rest, rfl, huid.symm, hc, ?_⟩
            by_cases h1 : condition.Type_ = JobComplete
            · exact Or.inl h1
            · by_cases h2 : condition.Type_ = JobFailed
              · exact Or.inr h2
              · simp [huid, hc, h1, h2] at h
        · simp [huid] at h
    · rintro ⟨newJob, condition, rest, rfl, huid, hc, hT | hT⟩
      · simp [runnableJob.UpdateFunc, huid, hc, hT]
      · simp [runnableJob.UpdateFunc, huid, hc, hT, hne]
  · intro newJob condition rest hobj huid hc
    subst hobj
    constructor
    · intro hT
      simp [runnableJob.UpdateFunc, huid, hc, hT]
    · intro hT
      simp [runnableJob.UpdateFunc, huid, hc, hT, hne]
  · intro newJob hobj huid
    subst hobj
    have : ¬ job.Meta.UID = newJob.Meta.UID := fun h => huid h.symm
    simp [runnableJob.UpdateFunc, this]
  · intro newJob condition rest hobj hc h1 h2
    subst hobj
    unfold runnableJob.UpdateFunc
    by_cases huid : job.Meta.UID = newJob.Meta.UID
    · simp [huid, hc, h1, h2]
    · simp [huid]

/-- C18 at events of the created `exampleJob`: a `Failed` first condition sends
the failure, a foreign UID sends nothing, and a first condition of another type
sends nothing although the second condition is `Complete`. -/
theorem C18_handler_signals_iff_witness :
    runnableJob.UpdateFunc (exampleCreatedJob "u")
        (exampleJobEvent "u" [exampleCondition "Failed", exampleCondition "Complete"]) =
      some (some (.New ("job failed: " ++ "r" ++ ": " ++ "m"))) ∧
    runnableJob.UpdateFunc (exampleCreatedJob "u")
        (exampleJobEvent "v" [exampleCondition "Complete"]) = none ∧
    runnableJob.UpdateFunc (exampleCreatedJob "u")
        (exampleJobEvent "u" [exampleCondition "Suspended", exampleCondition "Complete"]) =
      none :=
  ⟨((C18_handler_signals_iff (exampleCreatedJob "u")
        (exampleJobEvent "u" [exampleCondition "Failed", exampleCondition "Complete"])).2.1
      _ (exampleCondition "Failed") [exampleCondition "Complete"] rfl rfl rfl).2 rfl,
   (C18_handler_signals_iff (exampleCreatedJob "u")
        (exampleJobEvent "v" [exampleCondition "Complete"])).2.2.1 _ rfl (by decide),
   (C18_handler_signals_iff (exampleCreatedJob "u")
        (exampleJobEvent "u" [exampleCondition "Suspended", exampleCondition "Complete"])).2.2.2
      _ (exampleCondition "Suspended") [exampleCondition "Complete"] rfl rfl (by decide)
      (by decide)⟩

/-- C17: `Run` returns the value of the first send of the update handler. Once the
submission has succeeded, for every sequence of update events in which an event
sends `v` and no earlier event sends, `Run` returns `v`, whatever events follow (a
`Failed` update after a `Complete` one, a resync that repeats the update); a
sequence in which no event sends leaves `Run` waiting. -/
theorem C17_first_signal_is_returned {σ : Type} (scheme : Scheme) (clientset : Clientset σ)
    (job createdJob : Job) (secrets : List Secret) (st st1 : σ)
    (pre post : List InformerObject) (e : InformerObject) (v : GoError)
    (hsubmit : runnableJob.submit scheme clientset job secrets st = (.ok createdJob, st1))
    (hpre : ∀ x ∈ pre, runnableJob.UpdateFunc createdJob x = none)
    (he : runnableJob.UpdateFunc createdJob e = some v) :
    runnableJob.Run scheme clientset job secrets st (pre ++ e :: post) = (.returned v, st1) ∧
    (∀ later : List InformerObject,
      runnableJob.Run scheme clientset job secrets st (pre ++ e :: later) =
        runnableJob.Run scheme clientset job secrets st (pre ++ e :: post)) ∧
    (∀ events : List InformerObject,
      (∀ x ∈ events, runnableJob.UpdateFunc createdJob x = none) →
      runnableJob.Run scheme clientset job secrets st events = (.blocked, st1)) := by
  have hrun : ∀ events, runnableJob.Run scheme clientset job secrets st events =
      (runnableJob.await createdJob events, st1) := by
    intro events
    simp [runnableJob.Run, hsubmit]
  have hfirst : ∀ later : List InformerObject,
      runnableJob.await createdJob (pre ++ e :: later) = .returned v := by
    intro later
    unfold runnableJob.await
    rw [findSome?_append_of_none _ pre e later hpre]
    simp [List.findSome?_cons, he]
  refine ⟨?_, ?_, ?_⟩
  · rw [hrun, hfirst]
  · intro later
    rw [hrun, hrun, hfirst, hfirst]
  · intro events hnone
    rw [hrun]
    have h : events.findSome? (runnableJob.UpdateFunc createdJob) = none := by
      induction events with
      | nil => rfl
      | cons x xs ih =>
        simp only [List.findSome?_cons, hnone x (by simp)]
        exact ih (fun y hy => hnone y (by simp [hy]))
    simp [runnableJob.await, h]

/-- C17 on the in-memory cluster: after a foreign event and an event without
conditions, the `Complete` update decides; the `Failed` update and the repeated
`Complete` update that follow change nothing. -/
theorem C17_first_signal_is_returned_witness :
    runnableJob.Run exampleScheme Cluster.clientset exampleJob [] Cluster.empty
        ([ exampleJobEvent "other" [exampleCondition "Failed"], exampleJobEvent "u" [] ] ++
          exampleJobEvent "u" [exampleCondition "Complete"] ::
          [ exampleJobEvent "u" [exampleCondition "Failed"],
            exampleJobEvent "u" [exampleCondition "Complete"] ]) =
      (.returned none,
        { Secrets := [], Jobs := [exampleCreatedJob "u"], Reports := [], Serial := 1 }) :=
  (C17_first_signal_is_returned exampleScheme Cluster.clientset exampleJob
    (exampleCreatedJob "u") [] Cluster.empty
    { Secrets := [], Jobs := [exampleCreatedJob "u"], Reports := [], Serial := 1 }
    [ exampleJobEvent "other" [exampleCondition "Failed"], exampleJobEvent "u" [] ]
    [ exampleJobEvent "u" [exampleCondition "Failed"],
      exampleJobEvent "u" [exampleCondition "Complete"] ]
    (exampleJobEvent "u" [exampleCondition "Complete"]) none
    (by rfl) (by decide) (by rfl)).1

/-! ## The failure of the report builder -/

/-- C16: when the kind of the owner cannot be determined from the scheme, `Get`
returns the zero report and the error `getting kind for object: <cause>`; the zero
report has no name, no label and no owner reference. A type that the scheme does
not register, or registers more than once, has no kind. -/
theorem C16_get_fails_without_kind (ToLower : String → String) (b : ReportBuilder)
    (err : Err) (hkind : KindForObject b.owner b.scheme = .error err) :
    b.Get ToLower = (VulnerabilityReport.zero, some (.Wrap "getting kind for object" err)) ∧
    (Err.Wrap "getting kind for object" err).Error =
      "getting kind for object: " ++ err.Error ∧
    (b.Get ToLower).1.Meta.Name = "" ∧
    (b.Get ToLower).1.Meta.Labels = [] ∧
    (b.Get ToLower).1.Meta.OwnerReferences = [] ∧
    (∀ (o : Object) (scheme : Scheme), (scheme.ObjectKinds o.GoType).length ≠ 1 →
      ∃ cause, KindForObject (some o) scheme = .error cause) := by
  have hget : b.Get ToLower =
      (VulnerabilityReport.zero, some (.Wrap "getting kind for object" err)) := by
    simp [ReportBuilder.Get, hkind]
  refine ⟨hget, rfl, ?_, ?_, ?_, ?_⟩
  · rw [hget]; rfl
  · rw [hget]; rfl
  · rw [hget]; rfl
  · intro o scheme hlen
    cases hk : scheme.ObjectKinds o.GoType with
    | nil => exact ⟨_, by simp [KindForObject, GVKForObject, hk]; rfl⟩
    | cons g rest =>
      cases rest with
      | nil => simp [hk] at hlen
      | cons g2 rest2 => exact ⟨_, by simp [KindForObject, GVKForObject, hk]; rfl⟩

/-- C16 at an owner whose type the example scheme does not register. -/
theorem C16_get_fails_without_kind_witness :
    exampleBuilderUnregistered.Get asciiToLower =
      (VulnerabilityReport.zero,
        some (.Wrap "getting kind for object"
          (.New "no kind is registered for the type *v1alpha1.Unknown"))) :=
  (C16_get_fails_without_kind asciiToLower exampleBuilderUnregistered
    (.New "no kind is registered for the type *v1alpha1.Unknown") (by rfl)).1

/-! ## The stages of a scan -/

/-- The job that `prepareScanJob` returns. -/
theorem Scanner.prepareScanJob_ok_inv {σ : Type} (s : Scanner σ) (workload : Object)
    (spec : PodSpec) (credentials : Credentials) (job : Job) (secrets : List Secret)
    (h : s.prepareScanJob workload spec credentials = .ok (job, secrets)) :
    job.Meta.Name = GetScanJobName s.kube.ComputeHash workload ∧
    job.Meta.Namespace = NamespaceName ∧
    job.Meta.Labels =
      [ (LabelResourceKind, workload.TypeMetaKind),
        (LabelResourceName, workload.Meta.Name),
        (LabelResourceNamespace, workload.Meta.Namespace),
        (LabelPodSpecHash, s.kube.ComputeHashPodSpec spec),
        (LabelK8SAppManagedBy, AppStarboard),
        (LabelVulnerabilityReportScanner, "true") ] ∧
    ∃ templateSpec, s.plugin.GetScanJobSpec spec credentials = .ok (templateSpec, secrets) := by
  unfold Scanner.prepareScanJob at h
  cases hp : s.plugin.GetScanJobSpec spec credentials with
  | error e => simp [hp] at h
  | ok p =>
    obtain ⟨templateSpec, secrets1⟩ := p
    simp only [hp] at h
    cases ht : s.config.GetScanJobTolerations with
    | error e => simp [ht] at h
    | ok tolerations =>
      simp only [ht] at h
      cases hj : s.kube.AsJSON (s.kube.GetContainerImagesFromPodSpec spec) with
      | error e => simp [hj] at h
      | ok json =>
        simp only [hj] at h
        cases ha : s.config.GetScanJobAnnotations with
        | error e => simp [ha] at h
        | ok annotations =>
          simp only [ha, Except.ok.injEq, Prod.mk.injEq] at h
          obtain ⟨hjob, hsec⟩ := h
          subst hjob hsec
          exact ⟨rfl, rfl, rfl, templateSpec, rfl⟩

/-- What `Scan` returns when the job run returns an error. -/
theorem Scanner.Scan_of_run_error {σ : Type} (ToLower : String → String) (s : Scanner σ)
    (st st1 : σ) (events : List InformerObject) (workload : KubeObject) (owner : Object)
    (spec : PodSpec) (credentials : Credentials) (job : Job) (secrets : List Secret)
    (err : Err)
    (ho : s.objectResolver.GetObjectFromPartialObject st workload = .ok owner)
    (hs : s.kube.GetPodSpec owner = .ok spec)
    (hc : s.getCredentials st spec workload.Namespace = .ok credentials)
    (hp : s.prepareScanJob owner spec credentials = .ok (job, secrets))
    (hr : runner.Run s.scheme s.clientset job secrets st events = (.returned (some err), st1)) :
    Scanner.Scan ToLower s st events workload =
      (.returned [] (some (.Wrap "running scan job" err)), st1) := by
  simp only [Scanner.Scan, ho, hs, hc, hp, hr]

/-- C13: when the creation of the scan job fails, as it does with an already-exists
error while a job of the deterministic name of the owner is present, `Scan` returns
no report and the error `running scan job: creating job: <cause>`, which still
counts as an already-exists error; it does not return an empty result with a nil
error. -/
theorem C13_job_exists_is_an_error {σ : Type} (ToLower : String → String) (s : Scanner σ)
    (st st1 : σ) (events : List InformerObject) (workload : KubeObject) (owner : Object)
    (spec : PodSpec) (credentials : Credentials) (job : Job) (secrets created : List Secret)
    (e : Err)
    (ho : s.objectResolver.GetObjectFromPartialObject st workload = .ok owner)
    (hs : s.kube.GetPodSpec owner = .ok spec)
    (hc : s.getCredentials st spec workload.Namespace = .ok credentials)
    (hp : s.prepareScanJob owner spec credentials = .ok (job, secrets))
    (hsecrets : runnableJob.createSecrets s.clientset job.Meta.Namespace secrets st =
      (.ok created, st1))
    (hjob : s.clientset.CreateJob st1 job.Meta.Namespace job = .error e)
    (hexists : IsAlreadyExists e = true) :
    job.Meta.Name = GetScanJobName s.kube.ComputeHash owner ∧
    Scanner.Scan ToLower s st events workload =
      (.returned [] (some (.Wrap "running scan job" (.Wrap "creating job" e))), st1) ∧
    (Err.Wrap "running scan job" (.Wrap "creating job" e)).Error =
      "running scan job: " ++ ("creating job: " ++ e.Error) ∧
    IsAlreadyExists (.Wrap "running scan job" (.Wrap "creating job" e)) = true ∧
    ∀ st2, Scanner.Scan ToLower s st events workload ≠ (.returned [] none, st2) := by
  have hrun : runner.Run s.scheme s.clientset job secrets st events =
      (.returned (some (.Wrap "creating job" e)), st1) := by
    simp [runner.Run, runnableJob.Run, runnableJob.submit, hsecrets, hjob]
  have hscan := Scanner.Scan_of_run_error ToLower s st st1 events workload owner spec
    credentials job secrets _ ho hs hc hp hrun
  refine ⟨(Scanner.prepareScanJob_ok_inv s owner spec credentials job secrets hp).1, hscan,
    rfl, ?_, ?_⟩
  · simpa [IsAlreadyExists, Err.ReasonForError] using hexists
  · intro st2 h
    rw [hscan] at h
    simp at h

/-- C13 on the in-memory cluster: while the scan job of the deployment `web` is
present, a second scan of `web` fails on the creation of the job. -/
theorem C13_job_exists_is_an_error_witness :
    Scanner.Scan asciiToLower (exampleScanner "") exampleClusterAfterRun [exampleCompleteEvent]
        exampleWorkload =
      (.returned []
        (some (.Wrap "running scan job" (.Wrap "creating job"
          (.Status .AlreadyExists
            "jobs.batch scan-vulnerabilityreport-Deployment.ns.web already exists")))),
        exampleClusterAfterRun) :=
  (C13_job_exists_is_an_error asciiToLower (exampleScanner "") exampleClusterAfterRun
    exampleClusterAfterRun [exampleCompleteEvent] exampleWorkload exampleDeployment
    exampleOwnerPodSpec [] exampleScanJob [] []
    (.Status .AlreadyExists
      "jobs.batch scan-vulnerabilityreport-Deployment.ns.web already exists")
    (by rfl) (by rfl) (by rfl) (by rfl) (by rfl) (by rfl) (by rfl)).2.1

/-- C14 (as amended): the deletion of the scan job is deferred once the job run has
returned nil. From then on, with `DeleteScanJob` set, `Scan` issues one delete of the
job with background propagation, whether the reports are then collected or log
retrieval, parsing or report building fails, and drops the error of the delete;
without `DeleteScanJob` it issues no delete, whatever a delete would do. When the
job run returns an error, `Scan` returns in the state that the run left. -/
theorem C14_deletion_follows_completed_run {σ : Type} (ToLower : String → String)
    (s : Scanner σ) (st : σ) (events : List InformerObject) (workload : KubeObject)
    (owner : Object) (spec : PodSpec) (credentials : Credentials) (job : Job)
    (secrets : List Secret)
    (ho : s.objectResolver.GetObjectFromPartialObject st workload = .ok owner)
    (hs : s.kube.GetPodSpec owner = .ok spec)
    (hc : s.getCredentials st spec workload.Namespace = .ok credentials)
    (hp : s.prepareScanJob owner spec credentials = .ok (job, secrets)) :
    (∀ st2 : σ,
      runner.Run s.scheme s.clientset job secrets st events = (.returned none, st2) →
      Scanner.Scan ToLower s st events workload =
        (.returned (s.getVulnerabilityReportsByScanJob ToLower st2 job owner).1
            (s.getVulnerabilityReportsByScanJob ToLower st2 job owner).2,
          s.deleteScanJob st2 job) ∧
      (s.opts.DeleteScanJob = true →
        (∀ st3 : σ,
          s.clientset.DeleteJob st2 job.Meta.Namespace job.Meta.Name
              DeletionPropagation.Background = .ok st3 →
          s.deleteScanJob st2 job = st3) ∧
        (∀ e : Err,
          s.clientset.DeleteJob st2 job.Meta.Namespace job.Meta.Name
              DeletionPropagation.Background = .error e →
          s.deleteScanJob st2 job = st2)) ∧
      (s.opts.DeleteScanJob = false →
        ∀ delete : σ → String → String → DeletionPropagation → Except Err σ,
          Scanner.deleteScanJob
            { s with clientset := { s.clientset with DeleteJob := delete } } st2 job = st2)) ∧
    (∀ (st1 : σ) (err : Err),
      runner.Run s.scheme s.clientset job secrets st events = (.returned (some err), st1) →
      Scanner.Scan ToLower s st events workload =
        (.returned [] (some (.Wrap "running scan job" err)), st1)) := by
  constructor
  · intro st2 hr
    refine ⟨Scanner.Scan_of_run ToLower s st st2 events workload owner spec credentials job
      secrets ho hs hc hp hr, ?_, ?_⟩
    · intro hdel
      constructor
      · intro st3 h3
        simp [Scanner.deleteScanJob, hdel, h3]
      · intro e h3
        simp [Scanner.deleteScanJob, hdel, h3]
    · intro hdel delete
      simp [Scanner.deleteScanJob, hdel]
  · intro st1 err hr
    exact Scanner.Scan_of_run_error ToLower s st st1 events workload owner spec credentials
      job secrets err ho hs hc hp hr

/-- C14 (as amended) on the example scanner, which has `DeleteScanJob` set: after
the completed run the job is deleted although the logs of `sidecar` cannot be
read. -/
theorem C14_deletion_follows_completed_run_witness :
    Scanner.Scan asciiToLower (exampleScanner "sidecar") Cluster.empty [exampleCompleteEvent]
        exampleWorkload =
      (.returned
          ((exampleScanner "sidecar").getVulnerabilityReportsByScanJob asciiToLower
            exampleClusterAfterRun exampleScanJob exampleDeployment).1
          ((exampleScanner "sidecar").getVulnerabilityReportsByScanJob asciiToLower
            exampleClusterAfterRun exampleScanJob exampleDeployment).2,
        (exampleScanner "sidecar").deleteScanJob exampleClusterAfterRun exampleScanJob) ∧
    (exampleScanner "sidecar").deleteScanJob exampleClusterAfterRun exampleScanJob =
      { exampleClusterAfterRun with Jobs := [] } :=
  ⟨((C14_deletion_follows_completed_run asciiToLower (exampleScanner "sidecar") Cluster.empty
      [exampleCompleteEvent] exampleWorkload exampleDeployment exampleOwnerPodSpec []
      exampleScanJob [] (by rfl) (by rfl) (by rfl) (by rfl)).1 exampleClusterAfterRun
      (by rfl)).1,
   (((C14_deletion_follows_completed_run asciiToLower (exampleScanner "sidecar") Cluster.empty
      [exampleCompleteEvent] exampleWorkload exampleDeployment exampleOwnerPodSpec []
      exampleScanJob [] (by rfl) (by rfl) (by rfl) (by rfl)).1 exampleClusterAfterRun
      (by rfl)).2.1 (by rfl)).1 { exampleClusterAfterRun with Jobs := [] } (by rfl)⟩

/-- C14 (counterexample): with `DeleteScanJob` set, a scan whose job fails returns
the failure and leaves the job in the cluster. -/
theorem C14_failed_run_keeps_job :
    (exampleScanner "").opts.DeleteScanJob = true ∧
    Scanner.Scan asciiToLower (exampleScanner "") Cluster.empty [exampleFailedEvent]
        exampleWorkload =
      (.returned []
        (some (.Wrap "running scan job"
          (.New "job failed: DeadlineExceeded: Job was active longer than specified deadline"))),
        exampleClusterAfterRun) ∧
    exampleClusterAfterRun.Jobs.map (fun j => j.Meta.Name) =
      ["scan-vulnerabilityreport-Deployment.ns.web"] := by
  refine ⟨rfl, ?_, ?_⟩
  · rfl
  · decide

/-- The loop stops at the first entry for which a step fails, with the error of
that step as it is. -/
theorem Scanner.collectReports_stops {σ : Type} (ToLower : String → String) (s : Scanner σ)
    (st : σ) (job : Job) (owner : Object) (podSpecHash : String)
    (before : List (String × String)) (entry : String × String)
    (after : List (String × String)) (acc built : List VulnerabilityReport) (e : Err)
    (hbefore : Scanner.collectReports ToLower s st job owner podSpecHash before acc =
      (built, none))
    (hfail : Scanner.containerReport ToLower s st job owner podSpecHash entry = .error e) :
    Scanner.collectReports ToLower s st job owner podSpecHash (before ++ entry :: after) acc =
      ([], some e) := by
  induction before generalizing acc with
  | nil =>
    rw [List.nil_append, Scanner.collectReports_cons, hfail]
  | cons x xs ih =>
    rw [Scanner.collectReports_cons] at hbefore
    rw [List.cons_append, Scanner.collectReports_cons]
    cases hx : Scanner.containerReport ToLower s st job owner podSpecHash x with
    | error e1 => simp [hx] at hbefore
    | ok report =>
      simp only [hx] at hbefore ⊢
      exact ih _ hbefore

/-- The step that makes the report of an entry fail, and its error. -/
theorem Scanner.containerReport_error {σ : Type} (ToLower : String → String) (s : Scanner σ)
    (st : σ) (job : Job) (owner : Object) (podSpecHash : String) (entry : String × String)
    (e : Err) :
    (s.kube.GetLogsByJobAndContainerName st job entry.1 = .error e →
      Scanner.containerReport ToLower s st job owner podSpecHash entry = .error e) ∧
    (∀ logs : String,
      s.kube.GetLogsByJobAndContainerName st job entry.1 = .ok logs →
      s.plugin.ParseVulnerabilityReportData entry.2 logs = .error e →
      Scanner.containerReport ToLower s st job owner podSpecHash entry = .error e) ∧
    (∀ (logs : String) (payload : ReportData) (report : VulnerabilityReport),
      s.kube.GetLogsByJobAndContainerName st job entry.1 = .ok logs →
      s.plugin.ParseVulnerabilityReportData entry.2 logs = .ok payload →
      ReportBuilder.Get ToLower
          ((((NewReportBuilder s.scheme).Controller owner).Container entry.1).Data
            payload |>.PodSpecHash podSpecHash) = (report, some e) →
      Scanner.containerReport ToLower s st job owner podSpecHash entry = .error e) := by
  refine ⟨?_, ?_, ?_⟩
  · intro hl
    simp [Scanner.containerReport, hl]
  · intro logs hl hparse
    simp [Scanner.containerReport, hl, hparse]
  · intro logs payload report hl hparse hget
    simp [Scanner.containerReport, hl, hparse, hget]

/-- C15 (as amended): `Scan` returns the failure of a stage with no report. The
failures of resolving the owner, of extracting the pod specification, of
preparing the scan job, of running the scan job and of reading the container images
come wrapped with a message that names the stage (`resolving object`,
`getting Pod template`, `preparing scan job`, `running scan job`,
`getting container images`). The failures of resolving the credentials, of
retrieving the log of a container, of parsing it and of building its report are
returned as the failing step gives them; `Scan` adds no message to them. -/
theorem C15_stage_errors {σ : Type} (ToLower : String → String) (s : Scanner σ) (st : σ)
    (events : List InformerObject) (workload : KubeObject) :
    (∀ e : Err,
      s.objectResolver.GetObjectFromPartialObject st workload = .error e →
      Scanner.Scan ToLower s st events workload =
        (.returned [] (some (.Wrap "resolving object" e)), st)) ∧
    (∀ (owner : Object), s.objectResolver.GetObjectFromPartialObject st workload = .ok owner →
      (∀ e : Err, s.kube.GetPodSpec owner = .error e →
        Scanner.Scan ToLower s st events workload =
          (.returned [] (some (.Wrap "getting Pod template" e)), st)) ∧
      ∀ spec : PodSpec, s.kube.GetPodSpec owner = .ok spec →
        (∀ e : Err, s.getCredentials st spec workload.Namespace = .error e →
          Scanner.Scan ToLower s st events workload = (.returned [] (some e), st)) ∧
        ∀ credentials : Credentials,
          s.getCredentials st spec workload.Namespace = .ok credentials →
          (∀ e : Err, s.prepareScanJob owner spec credentials = .error e →
            Scanner.Scan ToLower s st events workload =
              (.returned [] (some (.Wrap "preparing scan job" e)), st)) ∧
          ∀ (job : Job) (secrets : List Secret),
            s.prepareScanJob owner spec credentials = .ok (job, secrets) →
            (∀ (e : Err) (st1 : σ),
              runner.Run s.scheme s.clientset job secrets st events =
                (.returned (some e), st1) →
              Scanner.Scan ToLower s st events workload =
                (.returned [] (some (.Wrap "running scan job" e)), st1)) ∧
            ∀ st2 : σ,
              runner.Run s.scheme s.clientset job secrets st events = (.returned none, st2) →
              (∀ e : Err, s.kube.GetContainerImagesFromJob job = .error e →
                Scanner.Scan ToLower s st events workload =
                  (.returned [] (some (.Wrap "getting container images" e)),
                    s.deleteScanJob st2 job)) ∧
              ∀ (before : List (String × String)) (entry : String × String)
                  (after : List (String × String)) (podSpecHash : String)
                  (built : List VulnerabilityReport) (e : Err),
                s.kube.GetContainerImagesFromJob job = .ok (before ++ entry :: after) →
                job.Meta.Labels.get LabelPodSpecHash = some podSpecHash →
                Scanner.collectReports ToLower s st2 job owner podSpecHash before [] =
                  (built, none) →
                (s.kube.GetLogsByJobAndContainerName st2 job entry.1 = .error e ∨
                  (∃ logs, s.kube.GetLogsByJobAndContainerName st2 job entry.1 = .ok logs ∧
                    s.plugin.ParseVulnerabilityReportData entry.2 logs = .error e) ∨
                  (∃ logs payload report,
                    s.kube.GetLogsByJobAndContainerName st2 job entry.1 = .ok logs ∧
                    s.plugin.ParseVulnerabilityReportData entry.2 logs = .ok payload ∧
                    ReportBuilder.Get ToLower
                        ((((NewReportBuilder s.scheme).Controller owner).Container
                          entry.1).Data payload |>.PodSpecHash podSpecHash) =
                      (report, some e))) →
                Scanner.Scan ToLower s st events workload =
                  (.returned [] (some e), s.deleteScanJob st2 job)) := by
  refine ⟨?_, ?_⟩
  · intro e ho
    simp only [Scanner.Scan, ho]
  · intro owner ho
    refine ⟨?_, ?_⟩
    · intro e hs
      simp only [Scanner.Scan, ho, hs]
    · intro spec hs
      refine ⟨?_, ?_⟩
      · intro e hc
        simp only [Scanner.Scan, ho, hs, hc]
      · intro credentials hc
        refine ⟨?_, ?_⟩
        · intro e hp
          simp only [Scanner.Scan, ho, hs, hc, hp]
        · intro job secrets hp
          refine ⟨?_, ?_⟩
          · intro e st1 hr
            exact Scanner.Scan_of_run_error ToLower s st st1 events workload owner spec
              credentials job secrets e ho hs hc hp hr
          · intro st2 hr
            have hscan := Scanner.Scan_of_run ToLower s st st2 events workload owner spec
              credentials job secrets ho hs hc hp hr
            refine ⟨?_, ?_⟩
            · intro e hi
              rw [hscan]
              simp only [Scanner.getVulnerabilityReportsByScanJob, hi]
            · intro before entry after podSpecHash built e hi hl hbefore hfail
              have hentry : Scanner.containerReport ToLower s st2 job owner podSpecHash
                  entry = .error e := by
                have hsteps := Scanner.containerReport_error ToLower s st2 job owner
                  podSpecHash entry e
                rcases hfail with h1 | ⟨logs, h1, h2⟩ | ⟨logs, payload, report, h1, h2, h3⟩
                · exact hsteps.1 h1
                · exact hsteps.2.1 logs h1 h2
                · exact hsteps.2.2 logs payload report h1 h2 h3
              have hloop := Scanner.collectReports_stops ToLower s st2 job owner podSpecHash
                before entry after [] built e hbefore hentry
              rw [hscan]
              simp only [Scanner.getVulnerabilityReportsByScanJob, hi, hl, hloop]

/-- C15 (as amended) on the example scanner: a workload that the cluster does not
know fails with the message of the stage, and a job that fails does too. -/
theorem C15_stage_errors_witness :
    Scanner.Scan asciiToLower (exampleScanner "") Cluster.empty [exampleCompleteEvent]
        { Kind := "Deployment", Namespace := "ns", Name := "missing" } =
      (.returned []
        (some (.Wrap "resolving object" (.Status .NotFound "Deployment missing not found"))),
        Cluster.empty) ∧
    Scanner.Scan asciiToLower (exampleScanner "") Cluster.empty [exampleFailedEvent]
        exampleWorkload =
      (.returned []
        (some (.Wrap "running scan job"
          (.New "job failed: DeadlineExceeded: Job was active longer than specified deadline"))),
        exampleClusterAfterRun) :=
  ⟨(C15_stage_errors asciiToLower (exampleScanner "") Cluster.empty [exampleCompleteEvent]
      { Kind := "Deployment", Namespace := "ns", Name := "missing" }).1
      (.Status .NotFound "Deployment missing not found") (by rfl),
   ((((((C15_stage_errors asciiToLower (exampleScanner "") Cluster.empty [exampleFailedEvent]
      exampleWorkload).2 exampleDeployment (by rfl)).2 exampleOwnerPodSpec (by rfl)).2 []
      (by rfl)).2 exampleScanJob [] (by rfl)).1
      (.New "job failed: DeadlineExceeded: Job was active longer than specified deadline")
      exampleClusterAfterRun (by rfl))⟩

/-- C15 (counterexample): the error of the log retrieval for the container
`sidecar` comes back from `Scan` as the logs reader gave it, without a message
that names the stage. -/
theorem C15_log_error_is_not_wrapped :
    (exampleScanner "sidecar").kube.GetLogsByJobAndContainerName exampleClusterAfterRun
        exampleScanJob "sidecar" =
      .error (.New "container sidecar is not available") ∧
    Scanner.Scan asciiToLower (exampleScanner "sidecar") Cluster.empty [exampleCompleteEvent]
        exampleWorkload =
      (.returned [] (some (.New "container sidecar is not available")),
        { exampleClusterAfterRun with Jobs := [] }) := by
  constructor
  · rfl
  · rfl

/-! ## The reports of a scan -/

/-- What a report that `Get` returns holds of the builder. -/
theorem ReportBuilder.Get_ok_fields (ToLower : String → String) (b : ReportBuilder)
    (r : VulnerabilityReport) (h : b.Get ToLower = (r, none)) :
    ∃ o K, b.owner = some o ∧ KindForObject (some o) b.scheme = .ok K ∧
      r.Meta.Name = ToLower K ++ "-" ++ o.Meta.Name ++ "-" ++ b.container ∧
      r.Meta.Namespace = o.Meta.Namespace ∧
      r.Report = b.data ∧
      r.Meta.Labels.get LabelContainerName = some b.container ∧
      r.Meta.Labels.get LabelPodSpecHash = (if b.hash = "" then none else some b.hash) ∧
      r.Meta.OwnerReferences.map (fun ref => (ref.Kind, ref.Name, ref.UID, ref.Controller)) =
        [(K, o.Meta.Name, o.Meta.UID, some true)] := by
  obtain ⟨o, gvk, ho, hg⟩ := ReportBuilder.Get_ok_inv ToLower b r h
  have hr := ReportBuilder.Get_of_gvk ToLower b o gvk ho hg
  rw [h] at hr
  have hr := (Prod.mk.inj hr).1
  refine ⟨o, gvk.Kind, ho, (KindForObject_ok_iff o b.scheme gvk.Kind).mpr ⟨gvk, hg, rfl⟩,
    ?_, ?_, ?_, ?_, ?_, ?_⟩
  · rw [hr]
  · rw [hr]
  · rw [hr]
  · rw [hr]
    by_cases hh : b.hash = "" <;>
      simp [hh, StringMap.get, LabelResourceKind, LabelResourceName, LabelResourceNamespace,
        LabelContainerName, LabelPodSpecHash]
  · rw [hr]
    by_cases hh : b.hash = "" <;>
      simp [hh, StringMap.get, LabelResourceKind, LabelResourceName, LabelResourceNamespace,
        LabelContainerName, LabelPodSpecHash]
  · rw [hr]
    rfl

/-- The steps that have succeeded when the report of an entry is built. -/
theorem Scanner.containerReport_ok_inv {σ : Type} (ToLower : String → String) (s : Scanner σ)
    (st : σ) (job : Job) (owner : Object) (podSpecHash : String) (entry : String × String)
    (report : VulnerabilityReport)
    (h : Scanner.containerReport ToLower s st job owner podSpecHash entry = .ok report) :
    ∃ logs payload,
      s.kube.GetLogsByJobAndContainerName st job entry.1 = .ok logs ∧
      s.plugin.ParseVulnerabilityReportData entry.2 logs = .ok payload ∧
      ReportBuilder.Get ToLower
          ((((NewReportBuilder s.scheme).Controller owner).Container entry.1).Data
            payload |>.PodSpecHash podSpecHash) = (report, none) := by
  unfold Scanner.containerReport at h
  cases hl : s.kube.GetLogsByJobAndContainerName st job entry.1 with
  | error e => simp [hl] at h
  | ok logs =>
    simp only [hl] at h
    cases hparse : s.plugin.ParseVulnerabilityReportData entry.2 logs with
    | error e => simp [hparse] at h
    | ok payload =>
      simp only [hparse] at h
      cases hget : ReportBuilder.Get ToLower
          ((((NewReportBuilder s.scheme).Controller owner).Container entry.1).Data
            payload |>.PodSpecHash podSpecHash) with
      | mk r e =>
        cases e with
        | some e1 => simp [hget] at h
        | none =>
          simp only [hget, Except.ok.injEq] at h
          subst h
          exact ⟨logs, payload, rfl, hparse, hget⟩

/-- The reports that `getVulnerabilityReportsByScanJob` returns without an error:
one for each entry of the container images, in order, built with the pod-spec hash
of the label of the job. -/
theorem Scanner.getVulnerabilityReportsByScanJob_ok_inv {σ : Type}
    (ToLower : String → String) (s : Scanner σ) (st : σ) (job : Job) (owner : Object)
    (reports : List VulnerabilityReport)
    (h : s.getVulnerabilityReportsByScanJob ToLower st job owner = (reports, none)) :
    ∃ containerImages podSpecHash,
      s.kube.GetContainerImagesFromJob job = .ok containerImages ∧
      job.Meta.Labels.get LabelPodSpecHash = some podSpecHash ∧
      List.Forall₂
        (fun entry report =>
          Scanner.containerReport ToLower s st job owner podSpecHash entry = .ok report)
        containerImages reports := by
  unfold Scanner.getVulnerabilityReportsByScanJob at h
  cases hi : s.kube.GetContainerImagesFromJob job with
  | error e => simp [hi] at h
  | ok containerImages =>
    simp only [hi] at h
    cases hl : job.Meta.Labels.get LabelPodSpecHash with
    | none => simp [hl] at h
    | some podSpecHash =>
      simp only [hl] at h
      obtain ⟨built, hb, hall⟩ := Scanner.collectReports_ok ToLower s st job owner
        podSpecHash containerImages [] reports h
      simp only [List.nil_append] at hb
      subst hb
      exact ⟨containerImages, podSpecHash, rfl, rfl, hall⟩

/-- The pod-spec hash label of the job that `prepareScanJob` returns. -/
theorem Scanner.prepareScanJob_hash_label {σ : Type} (s : Scanner σ) (workload : Object)
    (spec : PodSpec) (credentials : Credentials) (job : Job) (secrets : List Secret)
    (h : s.prepareScanJob workload spec credentials = .ok (job, secrets)) :
    job.Meta.Labels.get LabelPodSpecHash = some (s.kube.ComputeHashPodSpec spec) := by
  rw [(Scanner.prepareScanJob_ok_inv s workload spec credentials job secrets h).2.2.1]
  simp [StringMap.get, LabelResourceKind, LabelResourceName, LabelResourceNamespace,
    LabelPodSpecHash]

/-- Each element on the right of two related lists is related to one on the left. -/
theorem forall₂_exists_left {α β : Type} (R : α → β → Prop) (l1 : List α) (l2 : List β)
    (h : List.Forall₂ R l1 l2) : ∀ b ∈ l2, ∃ a ∈ l1, R a b := by
  induction h with
  | nil =>
    intro b hb
    simp at hb
  | cons hab _ ih =>
    intro b hb
    rcases List.mem_cons.mp hb with rfl | hb1
    · exact ⟨_, by simp, hab⟩
    · obtain ⟨a, ha, hR⟩ := ih b hb1
      exact ⟨a, by simp [ha], hR⟩

/-- C19: the pod-spec hash label of the scan job is the hash of the pod
specification of the owner (a hash is not empty), every report that `Scan` returns
carries it, and it stays the same whatever plugin (template, secrets), credentials
and configuration (tolerations, annotations) the job is prepared with. -/
theorem C19_hash_of_owner_pod_spec {σ : Type} (ToLower : String → String) (s : Scanner σ)
    (st : σ) (events : List InformerObject) (workload : KubeObject) (owner : Object)
    (spec : PodSpec) (credentials : Credentials) (job : Job) (secrets : List Secret)
    (ho : s.objectResolver.GetObjectFromPartialObject st workload = .ok owner)
    (hs : s.kube.GetPodSpec owner = .ok spec)
    (hc : s.getCredentials st spec workload.Namespace = .ok credentials)
    (hp : s.prepareScanJob owner spec credentials = .ok (job, secrets))
    (hne : s.kube.ComputeHashPodSpec spec ≠ "") :
    job.Meta.Labels.get LabelPodSpecHash = some (s.kube.ComputeHashPodSpec spec) ∧
    (∀ (reports : List VulnerabilityReport) (st1 : σ),
      Scanner.Scan ToLower s st events workload = (.returned reports none, st1) →
      ∀ report ∈ reports,
        report.Meta.Labels.get LabelPodSpecHash = some (s.kube.ComputeHashPodSpec spec)) ∧
    (∀ (plugin : Plugin) (config : ConfigData) (credentials1 : Credentials) (job1 : Job)
        (secrets1 : List Secret),
      Scanner.prepareScanJob { s with plugin := plugin, config := config } owner spec
          credentials1 = .ok (job1, secrets1) →
      job1.Meta.Labels.get LabelPodSpecHash = some (s.kube.ComputeHashPodSpec spec)) := by
  have hlabel := Scanner.prepareScanJob_hash_label s owner spec credentials job secrets hp
  refine ⟨hlabel, ?_, ?_⟩
  · intro reports st1 hscan report hmem
    rcases Scanner.Scan_returned_inv ToLower s st st1 events workload reports none hscan with
      ⟨-, hnone⟩ | ⟨owner1, spec1, credentials1, job1, secrets1, st2, ho1, hs1, hc1, hp1, -,
        hg, -⟩
    · exact absurd rfl hnone
    · rw [ho] at ho1
      cases ho1
      rw [hs] at hs1
      cases hs1
      rw [hc] at hc1
      cases hc1
      rw [hp] at hp1
      cases hp1
      obtain ⟨containerImages, podSpecHash, -, hl, hall⟩ :=
        Scanner.getVulnerabilityReportsByScanJob_ok_inv ToLower s st2 job owner reports hg
      rw [hlabel] at hl
      cases hl
      obtain ⟨entry, -, hentry⟩ := forall₂_exists_left _ _ _ hall report hmem
      obtain ⟨logs, payload, -, -, hget⟩ := Scanner.containerReport_ok_inv ToLower s st2 job
        owner _ entry report hentry
      obtain ⟨o, K, -, -, -, -, -, -, hhash, -⟩ := ReportBuilder.Get_ok_fields ToLower _
        report hget
      rw [hhash]
      simp [ReportBuilder.PodSpecHash, hne]
  · intro plugin config credentials1 job1 secrets1 hp1
    exact Scanner.prepareScanJob_hash_label { s with plugin := plugin, config := config } owner
      spec credentials1 job1 secrets1 hp1

/-- C19 on the example scanner: the job and both reports carry the hash of the pod
specification of the deployment. -/
theorem C19_hash_of_owner_pod_spec_witness :
    exampleScanJob.Meta.Labels.get LabelPodSpecHash =
      some ((exampleScanner "").kube.ComputeHashPodSpec exampleOwnerPodSpec) ∧
    (exampleScanner "").kube.ComputeHashPodSpec exampleOwnerPodSpec = "nginx:1.21envoy:1.20" ∧
    ∀ (reports : List VulnerabilityReport) (st1 : Cluster),
      Scanner.Scan asciiToLower (exampleScanner "") Cluster.empty [exampleCompleteEvent]
          exampleWorkload = (.returned reports none, st1) →
      ∀ report ∈ reports,
        report.Meta.Labels.get LabelPodSpecHash =
          some ((exampleScanner "").kube.ComputeHashPodSpec exampleOwnerPodSpec) :=
  ⟨(C19_hash_of_owner_pod_spec asciiToLower (exampleScanner "") Cluster.empty
      [exampleCompleteEvent] exampleWorkload exampleDeployment exampleOwnerPodSpec []
      exampleScanJob [] (by rfl) (by rfl) (by rfl) (by rfl) (by decide)).1,
   by rfl,
   (C19_hash_of_owner_pod_spec asciiToLower (exampleScanner "") Cluster.empty
      [exampleCompleteEvent] exampleWorkload exampleDeployment exampleOwnerPodSpec []
      exampleScanJob [] (by rfl) (by rfl) (by rfl) (by rfl) (by decide)).2.1⟩

/-- Reports whose labels are the distinct names of a list carry each name once. -/
theorem filter_label_length_one {α : Type} (label : α → Option String) (reports : List α)
    (names : List String) (hmap : reports.map label = names.map some) (hnodup : names.Nodup)
    (c : String) (hc : c ∈ names) :
    (reports.filter (fun r => label r == some c)).length = 1 := by
  induction names generalizing reports with
  | nil => simp at hc
  | cons n ns ih =>
    cases reports with
    | nil => simp at hmap
    | cons r rs =>
      simp only [List.map_cons, List.cons.injEq] at hmap
      obtain ⟨hr, hrs⟩ := hmap
      have hnd := List.nodup_cons.mp hnodup
      by_cases hn : n = c
      · subst hn
        have hzero : rs.filter (fun r => label r == some n) = [] := by
          rw [List.filter_eq_nil_iff]
          intro x hx hlx
          have hx1 : label x ∈ rs.map label := List.mem_map_of_mem label hx
          rw [hrs] at hx1
          obtain ⟨m, hm, hsome⟩ := List.mem_map.mp hx1
          have hlx1 : label x = some n := by simpa using hlx
          rw [hlx1] at hsome
          cases hsome
          exact hnd.1 hm
        simp [List.filter_cons, hr, hzero]
      · have hc1 : c ∈ ns := by
          rcases List.mem_cons.mp hc with h | h
          · exact absurd h.symm hn
          · exact h
        have := ih rs hrs hnd.2 hc1
        simp [List.filter_cons, hr, hn, this]

/-- The container-name labels of related entries and reports. -/
theorem Scanner.builtFor_labels {σ : Type} (ToLower : String → String) (s : Scanner σ)
    (st : σ) (job : Job) (owner : Object) (podSpecHash : String)
    (entries : List (String × String)) (reports : List VulnerabilityReport)
    (h : List.Forall₂ (Scanner.builtFor ToLower s st job owner podSpecHash) entries reports) :
    reports.map (fun r => r.Meta.Labels.get LabelContainerName) =
      (entries.map Prod.fst).map some := by
  induction h with
  | nil => rfl
  | cons hab _ ih =>
    obtain ⟨logs, payload, -, -, -, -, -, hlabel⟩ := hab
    simp only [List.map_cons, hlabel, ih]

/-- C12: when `Scan` returns a nil error, it returns one report for each entry of
the container images read from the annotation of the submitted job: as many reports
as entries, in order, each built for the resolved owner and the container of its
entry from the payload that the plugin parsed for the image reference of the entry,
with the container name as its container-name label; as the container names of a
map are distinct, each is the label of exactly one report. -/
theorem C12_one_report_per_container {σ : Type} (ToLower : String → String) (s : Scanner σ)
    (st st1 : σ) (events : List InformerObject) (workload : KubeObject)
    (reports : List VulnerabilityReport)
    (h : Scanner.Scan ToLower s st events workload = (.returned reports none, st1)) :
    ∃ owner spec credentials job secrets st2 containerImages podSpecHash,
      s.objectResolver.GetObjectFromPartialObject st workload = .ok owner ∧
      s.kube.GetPodSpec owner = .ok spec ∧
      s.getCredentials st spec workload.Namespace = .ok credentials ∧
      s.prepareScanJob owner spec credentials = .ok (job, secrets) ∧
      runner.Run s.scheme s.clientset job secrets st events = (.returned none, st2) ∧
      s.kube.GetContainerImagesFromJob job = .ok containerImages ∧
      reports.length = containerImages.length ∧
      List.Forall₂ (Scanner.builtFor ToLower s st2 job owner podSpecHash) containerImages
        reports ∧
      reports.map (fun r => r.Meta.Labels.get LabelContainerName) =
        (containerImages.map Prod.fst).map some ∧
      ((containerImages.map Prod.fst).Nodup →
        ∀ entry ∈ containerImages,
          (reports.filter
            (fun r => r.Meta.Labels.get LabelContainerName == some entry.1)).length = 1) := by
  rcases Scanner.Scan_returned_inv ToLower s st st1 events workload reports none h with
    ⟨-, hnone⟩ | ⟨owner, spec, credentials, job, secrets, st2, ho, hs, hc, hp, hr, hg, -⟩
  · exact absurd rfl hnone
  · obtain ⟨containerImages, podSpecHash, hi, -, hall⟩ :=
      Scanner.getVulnerabilityReportsByScanJob_ok_inv ToLower s st2 job owner reports hg
    have hbuilt : List.Forall₂ (Scanner.builtFor ToLower s st2 job owner podSpecHash)
        containerImages reports := by
      refine List.Forall₂.imp ?_ hall
      intro entry report hentry
      obtain ⟨logs, payload, hl, hparse, hget⟩ := Scanner.containerReport_ok_inv ToLower s st2
        job owner podSpecHash entry report hentry
      obtain ⟨o, K, howner, -, -, hns, hdata, hlabel, -, -⟩ :=
        ReportBuilder.Get_ok_fields ToLower _ report hget
      have ho1 : o = owner := by
        simp only [ReportBuilder.PodSpecHash, ReportBuilder.Data, ReportBuilder.Container,
          ReportBuilder.Controller, NewReportBuilder, Option.some.injEq] at howner
        exact howner.symm
      subst ho1
      exact ⟨logs, payload, hl, hparse, hget, hdata, hns, hlabel⟩
    have hlabels := Scanner.builtFor_labels ToLower s st2 job owner podSpecHash containerImages
      reports hbuilt
    refine ⟨owner, spec, credentials, job, secrets, st2, containerImages, podSpecHash, ho, hs,
      hc, hp, hr, hi, hbuilt.length_eq.symm, hbuilt, hlabels, ?_⟩
    intro hnodup entry hentry
    exact filter_label_length_one _ reports (containerImages.map Prod.fst) hlabels hnodup
      entry.1 (List.mem_map_of_mem Prod.fst hentry)

/-- C12 at the end-to-end scenario: the deployment `web` of the namespace `ns` with
the one container `app`, for which the plugin returns the payload `P`, yields the
one report `deployment-web-app` in `ns`, owned by the deployment, with the
container-name label `app`. -/
theorem C12_one_report_per_container_witness :
    Scanner.Scan asciiToLower scenarioScanner Cluster.empty [exampleCompleteEvent]
        exampleWorkload =
      (.returned [scenarioReport] none,
        { Secrets := [], Jobs := [], Reports := [], Serial := 1 }) ∧
    ∃ owner spec credentials job secrets st2 containerImages podSpecHash,
      scenarioScanner.objectResolver.GetObjectFromPartialObject Cluster.empty
          exampleWorkload = .ok owner ∧
      scenarioScanner.kube.GetPodSpec owner = .ok spec ∧
      scenarioScanner.getCredentials Cluster.empty spec exampleWorkload.Namespace =
        .ok credentials ∧
      scenarioScanner.prepareScanJob owner spec credentials = .ok (job, secrets) ∧
      runner.Run scenarioScanner.scheme scenarioScanner.clientset job secrets Cluster.empty
          [exampleCompleteEvent] = (.returned none, st2) ∧
      scenarioScanner.kube.GetContainerImagesFromJob job = .ok containerImages ∧
      [scenarioReport].length = containerImages.length ∧
      List.Forall₂ (Scanner.builtFor asciiToLower scenarioScanner st2 job owner podSpecHash)
        containerImages [scenarioReport] ∧
      [scenarioReport].map (fun r => r.Meta.Labels.get LabelContainerName) =
        (containerImages.map Prod.fst).map some ∧
      ((containerImages.map Prod.fst).Nodup →
        ∀ entry ∈ containerImages,
          ([scenarioReport].filter
            (fun r => r.Meta.Labels.get LabelContainerName == some entry.1)).length = 1) :=
  ⟨by rfl,
   C12_one_report_per_container asciiToLower scenarioScanner Cluster.empty
     { Secrets := [], Jobs := [], Reports := [], Serial := 1 } [exampleCompleteEvent]
     exampleWorkload [scenarioReport] (by rfl)⟩

/-! ## The names of reports of different scan targets -/

/-- Removing the same text at the end is injective. -/
theorem String.append_left_inj_aux (a b s : String) : a ++ s = b ++ s ↔ a = b := by
  constructor
  · intro h
    have h1 : (a ++ s).data = (b ++ s).data := by rw [h]
    rw [String.data_append, String.data_append] at h1
    exact String.ext (List.append_cancel_right h1)
  · intro h
    rw [h]

/-- Two texts split at their last separator agree part by part. -/
theorem List.split_at_last_separator {α : Type} (a : α) (l1 l2 r1 r2 : List α)
    (h1 : a ∉ r1) (h2 : a ∉ r2) (h : l1 ++ a :: r1 = l2 ++ a :: r2) : l1 = l2 ∧ r1 = r2 := by
  induction l1 generalizing l2 with
  | nil =>
    cases l2 with
    | nil =>
      simp only [List.nil_append, List.cons.injEq, true_and] at h
      exact ⟨rfl, h⟩
    | cons y l2 =>
      simp only [List.nil_append, List.cons_append, List.cons.injEq] at h
      exact absurd (h.2 ▸ (by simp : a ∈ l2 ++ a :: r2)) h1
  | cons x l1 ih =>
    cases l2 with
    | nil =>
      simp only [List.nil_append, List.cons_append, List.cons.injEq] at h
      exact absurd (h.2 ▸ (by simp : a ∈ l1 ++ a :: r1)) h2
    | cons y l2 =>
      simp only [List.cons_append, List.cons.injEq] at h
      obtain ⟨hl, hr⟩ := ih l2 h.2
      exact ⟨by rw [h.1, hl], hr⟩

/-- C20 (as amended): for two builders whose owners resolve to the same kind, the
report names are equal exactly when the texts `owner name-container` are equal.
They differ when the owner names are equal and the containers differ, when the
containers are equal and the owner names differ, and, for owner names or containers
that differ, when no container name holds the separator `-`. -/
theorem C20_report_names_differ (ToLower : String → String) (b1 b2 : ReportBuilder)
    (o1 o2 : Object) (K : String) (r1 r2 : VulnerabilityReport)
    (ho1 : b1.owner = some o1) (ho2 : b2.owner = some o2)
    (hK1 : KindForObject (some o1) b1.scheme = .ok K)
    (hK2 : KindForObject (some o2) b2.scheme = .ok K)
    (h1 : b1.Get ToLower = (r1, none)) (h2 : b2.Get ToLower = (r2, none)) :
    (r1.Meta.Name = r2.Meta.Name ↔
      o1.Meta.Name ++ "-" ++ b1.container = o2.Meta.Name ++ "-" ++ b2.container) ∧
    (o1.Meta.Name = o2.Meta.Name → b1.container ≠ b2.container →
      r1.Meta.Name ≠ r2.Meta.Name) ∧
    (b1.container = b2.container → o1.Meta.Name ≠ o2.Meta.Name →
      r1.Meta.Name ≠ r2.Meta.Name) ∧
    ('-' ∉ b1.container.data → '-' ∉ b2.container.data →
      o1.Meta.Name ≠ o2.Meta.Name ∨ b1.container ≠ b2.container →
      r1.Meta.Name ≠ r2.Meta.Name) := by
  obtain ⟨g1, hg1, hk1⟩ := (KindForObject_ok_iff o1 b1.scheme K).mp hK1
  obtain ⟨g2, hg2, hk2⟩ := (KindForObject_ok_iff o2 b2.scheme K).mp hK2
  have e1 := ReportBuilder.Get_of_gvk ToLower b1 o1 g1 ho1 hg1
  have e2 := ReportBuilder.Get_of_gvk ToLower b2 o2 g2 ho2 hg2
  rw [h1] at e1
  rw [h2] at e2
  have n1 : r1.Meta.Name = (ToLower K ++ "-") ++ (o1.Meta.Name ++ "-" ++ b1.container) := by
    rw [(Prod.mk.inj e1).1, hk1]
    simp [String.append_assoc]
  have n2 : r2.Meta.Name = (ToLower K ++ "-") ++ (o2.Meta.Name ++ "-" ++ b2.container) := by
    rw [(Prod.mk.inj e2).1, hk2]
    simp [String.append_assoc]
  have hiff : r1.Meta.Name = r2.Meta.Name ↔
      o1.Meta.Name ++ "-" ++ b1.container = o2.Meta.Name ++ "-" ++ b2.container := by
    rw [n1, n2, String.append_right_inj_aux]
  refine ⟨hiff, ?_, ?_, ?_⟩
  · intro hn hc heq
    rw [hiff, hn, String.append_right_inj_aux] at heq
    exact hc heq
  · intro hc hn heq
    rw [hiff, hc, String.append_left_inj_aux, String.append_left_inj_aux] at heq
    exact hn heq
  · intro hd1 hd2 hdiff heq
    rw [hiff] at heq
    have hdata : o1.Meta.Name.data ++ '-' :: b1.container.data =
        o2.Meta.Name.data ++ '-' :: b2.container.data := by
      have := congrArg String.data heq
      simpa [String.data_append] using this
    obtain ⟨hl, hr⟩ := List.split_at_last_separator '-' _ _ _ _ hd1 hd2 hdata
    rcases hdiff with hn | hc
    · exact hn (String.ext hl)
    · exact hc (String.ext hr)

/-- C20 (as amended) at the container `app` of the deployments `web` and
`web-api`. -/
theorem C20_report_names_differ_witness :
    exampleReport.Meta.Name ≠ (exampleBuilderWebApi.Get asciiToLower).1.Meta.Name :=
  (C20_report_names_differ asciiToLower exampleBuilder exampleBuilderWebApi exampleDeployment
    exampleDeploymentWebApi "Deployment" exampleReport
    (exampleBuilderWebApi.Get asciiToLower).1 rfl rfl (by rfl) (by rfl) (by rfl)
    (by rfl)).2.2.1 rfl (by decide)

/-- C20 (counterexample): the container `app` of the deployment `web-api` and the
container `api-app` of the deployment `web`, of one kind and one namespace, get the
same report name; writing the report of the one and then the report of the other
leaves one record, with the labels and the payload of the second. -/
theorem C20_names_collide :
    exampleDeploymentWebApi.GoType = exampleDeployment.GoType ∧
    exampleDeploymentWebApi.Meta.Namespace = exampleDeployment.Meta.Namespace ∧
    exampleDeploymentWebApi.Meta.Name ≠ exampleDeployment.Meta.Name ∧
    exampleBuilderWebApi.container ≠ exampleBuilderApiApp.container ∧
    (exampleBuilderWebApi.Get asciiToLower).2 = none ∧
    (exampleBuilderApiApp.Get asciiToLower).2 = none ∧
    (exampleBuilderWebApi.Get asciiToLower).1.Meta.Name = "deployment-web-api-app" ∧
    (exampleBuilderApiApp.Get asciiToLower).1.Meta.Name = "deployment-web-api-app" ∧
    (readWriter.Write Cluster.objectResolver Cluster.empty
        [ (exampleBuilderWebApi.Get asciiToLower).1,
          (exampleBuilderApiApp.Get asciiToLower).1 ]).1 = none ∧
    (readWriter.Write Cluster.objectResolver Cluster.empty
        [ (exampleBuilderWebApi.Get asciiToLower).1,
          (exampleBuilderApiApp.Get asciiToLower).1 ]).2.Reports.map
        (fun r => (r.Meta.Name, r.Report, r.Meta.Labels.get LabelResourceName,
          r.Meta.Labels.get LabelContainerName)) =
      [("deployment-web-api-app", "B", some "web", some "api-app")] := by
  refine ⟨rfl, rfl, by decide, by decide, by rfl, by rfl, by rfl, by rfl, by rfl, by rfl⟩

/-! ## The idempotence of `Write` -/

/-- A write of one report is one `createOrUpdate`. -/
theorem readWriter.Write_single {σ : Type} (r : ObjectResolver σ) (st st1 : σ)
    (report : VulnerabilityReport) :
    readWriter.Write r st [report] = (none, st1) ↔
      readWriter.createOrUpdate r st report = (none, st1) := by
  unfold readWriter.Write
  cases h : readWriter.createOrUpdate r st report with
  | mk e s1 =>
    cases e with
    | some err => simp
    | none => simp [readWriter.Write]

/-- The result of a successful write to a store. -/
theorem writeOutcome_none {σ : Type} (st st1 : σ) (result : Except Err σ)
    (h : writeOutcome st result = (none, st1)) : result = .ok st1 := by
  cases result with
  | error e => simp [writeOutcome] at h
  | ok s => simpa [writeOutcome] using h

/-- After a successful `createOrUpdate` on a store that reads its writes, the
lookup of the report finds a record with the labels and the payload of the
report. -/
theorem readWriter.createOrUpdate_stored {σ : Type} (r : ObjectResolver σ) (st st1 : σ)
    (report : VulnerabilityReport) (hstore : r.Client.ReadsItsWrites)
    (h : readWriter.createOrUpdate r st report = (none, st1)) :
    ∃ stored, r.Client.Get st1 report.Meta.Name report.Meta.Namespace = .ok stored ∧
      stored.Meta.Labels = report.Meta.Labels ∧ stored.Report = report.Report ∧
      ∀ existing, r.Client.Get st report.Meta.Name report.Meta.Namespace = .ok existing →
        stored.withoutVersion =
          ({ Meta := { existing.Meta with Labels := report.Meta.Labels },
             Report := report.Report } : VulnerabilityReport).withoutVersion := by
  obtain ⟨hkey, hcreate, hupdate⟩ := hstore
  unfold readWriter.createOrUpdate at h
  cases hget : r.Client.Get st report.Meta.Name report.Meta.Namespace with
  | ok existing =>
    simp only [hget] at h
    have hu := writeOutcome_none st st1 _ h
    obtain ⟨stored, hs, hsame⟩ := hupdate st st1 _ hu
    obtain ⟨hn, hns⟩ := hkey st _ _ existing hget
    simp only [hn, hns] at hs
    refine ⟨stored, hs, ?_, ?_, ?_⟩
    · have := congrArg (fun x => x.Meta.Labels) hsame
      simpa [VulnerabilityReport.withoutVersion] using this
    · have := congrArg (fun x => x.Report) hsame
      simpa [VulnerabilityReport.withoutVersion] using this
    · intro existing1 he
      cases he
      exact hsame
  | error err =>
    simp only [hget] at h
    by_cases hnf : IsNotFound err = true
    · simp only [hnf, if_true] at h
      have hc := writeOutcome_none st st1 _ h
      obtain ⟨stored, hs, hl, hp⟩ := hcreate st st1 report hc
      exact ⟨stored, hs, hl, hp, fun existing he => by cases he⟩
    · simp [hnf] at h

/-- C11: on a store that reads its writes, writing a report twice in a row leaves
the record that writing it once leaves, up to the version that the store manages:
the record found after the second write equals the record found after the first,
which has the name, the namespace, the labels and the payload of the report,
whether or not a record of that name was there before. -/
theorem C11_write_is_idempotent {σ : Type} (r : ObjectResolver σ) (st st1 st2 : σ)
    (report : VulnerabilityReport) (hstore : r.Client.ReadsItsWrites)
    (h1 : readWriter.Write r st [report] = (none, st1))
    (h2 : readWriter.Write r st1 [report] = (none, st2)) :
    ∃ afterOne afterTwo,
      r.Client.Get st1 report.Meta.Name report.Meta.Namespace = .ok afterOne ∧
      r.Client.Get st2 report.Meta.Name report.Meta.Namespace = .ok afterTwo ∧
      afterTwo.withoutVersion = afterOne.withoutVersion ∧
      afterOne.Meta.Name = report.Meta.Name ∧ afterOne.Meta.Namespace = report.Meta.Namespace ∧
      afterOne.Meta.Labels = report.Meta.Labels ∧ afterOne.Report = report.Report ∧
      readWriter.Write r st [report, report] = (none, st2) := by
  have c1 := (readWriter.Write_single r st st1 report).mp h1
  have c2 := (readWriter.Write_single r st1 st2 report).mp h2
  obtain ⟨afterOne, hg1, hl1, hp1, -⟩ := readWriter.createOrUpdate_stored r st st1 report hstore c1
  obtain ⟨afterTwo, hg2, -, -, hsame⟩ :=
    readWriter.createOrUpdate_stored r st1 st2 report hstore c2
  obtain ⟨hn, hns⟩ := hstore.1 st1 _ _ afterOne hg1
  refine ⟨afterOne, afterTwo, hg1, hg2, ?_, hn, hns, hl1, hp1, ?_⟩
  · rw [hsame afterOne hg1, ← hl1, ← hp1]
  · simp only [readWriter.Write, c1, c2]
/-- A record is at its own namespace and name. -/
theorem ObjectMeta.isAt_self (m : ObjectMeta) : m.isAt m.Namespace m.Name = true := by
  simp [ObjectMeta.isAt]

/-- A record at a namespace and a name has them. -/
theorem ObjectMeta.isAt_iff (m : ObjectMeta) (ns name : String) :
    m.isAt ns name = true ↔ m.Namespace = ns ∧ m.Name = name := by
  simp [ObjectMeta.isAt]

/-- After the replacement of the records that satisfy `p` by a record that
satisfies `p`, the first record that satisfies `p` is that record. -/
theorem find?_map_replace {α : Type} (p : α → Bool) (r : α) (hr : p r = true) (l : List α)
    (hany : l.any p = true) :
    (l.map (fun x => if p x then r else x)).find? p = some r := by
  induction l with
  | nil => simp at hany
  | cons x xs ih =>
    by_cases hx : p x = true
    · simp [List.find?_cons, hx, hr]
    · have hxs : xs.any p = true := by
        simpa [List.any_cons, hx] using hany
      simp [List.find?_cons, hx, ih hxs]

/-- The in-memory store reads its writes. -/
theorem Cluster.client_readsItsWrites : Cluster.client.ReadsItsWrites := by
  refine ⟨?_, ?_, ?_⟩
  · intro st name ns r h
    simp only [Cluster.client] at h
    cases hf : st.Reports.find? (fun x => x.Meta.isAt ns name) with
    | none => simp [hf] at h
    | some found =>
      simp only [hf, Except.ok.injEq] at h
      subst h
      have := List.find?_some hf
      have h2 := (ObjectMeta.isAt_iff found.Meta ns name).mp this
      exact ⟨h2.2, h2.1⟩
  · intro st st1 r h
    simp only [Cluster.client] at h
    by_cases hany : st.Reports.any (fun x => x.Meta.isAt r.Meta.Namespace r.Meta.Name) = true
    · simp [hany] at h
    · simp only [hany, Bool.false_eq_true, if_false, Except.ok.injEq] at h
      subst h
      have hnone : st.Reports.find? (fun x => x.Meta.isAt r.Meta.Namespace r.Meta.Name) =
          none := by
        rw [List.find?_eq_none]
        intro x hx hp
        apply hany
        rw [List.any_eq_true]
        exact ⟨x, hx, hp⟩
      refine ⟨{ r with Meta := { r.Meta with UID := st.freshUID } }, ?_, rfl, rfl⟩
      simp only [Cluster.client, List.find?_append, hnone]
      simp [ObjectMeta.isAt]
  · intro st st1 r h
    simp only [Cluster.client] at h
    by_cases hany : st.Reports.any (fun x => x.Meta.isAt r.Meta.Namespace r.Meta.Name) = true
    · simp only [hany, if_true, Except.ok.injEq] at h
      subst h
      refine ⟨r, ?_, rfl⟩
      have hf := find?_map_replace (fun x : VulnerabilityReport =>
        x.Meta.isAt r.Meta.Namespace r.Meta.Name) r (ObjectMeta.isAt_self r.Meta) st.Reports hany
      simp only [Cluster.client, hf]
    · simp [hany] at h

/-- C11 on the in-memory store: for a report that is not stored and for a report
whose record is stored, the second write leaves the cluster as the first write
left it. -/
theorem C11_write_is_idempotent_witness :
    (∃ afterOne afterTwo,
      Cluster.objectResolver.Client.Get
          { Cluster.empty with
            Reports := [{ exampleReport with Meta := { exampleReport.Meta with UID := "u" } }],
            Serial := 1 }
          exampleReport.Meta.Name exampleReport.Meta.Namespace = .ok afterOne ∧
      Cluster.objectResolver.Client.Get
          { Cluster.empty with
            Reports := [{ exampleReport with Meta := { exampleReport.Meta with UID := "u" } }],
            Serial := 1 }
          exampleReport.Meta.Name exampleReport.Meta.Namespace = .ok afterTwo ∧
      afterTwo.withoutVersion = afterOne.withoutVersion ∧
      afterOne.Meta.Name = exampleReport.Meta.Name ∧
      afterOne.Meta.Namespace = exampleReport.Meta.Namespace ∧
      afterOne.Meta.Labels = exampleReport.Meta.Labels ∧
      afterOne.Report = exampleReport.Report ∧
      readWriter.Write Cluster.objectResolver Cluster.empty [exampleReport, exampleReport] =
        (none,
          { Cluster.empty with
            Reports := [{ exampleReport with Meta := { exampleReport.Meta with UID := "u" } }],
            Serial := 1 })) ∧
    readWriter.Write Cluster.objectResolver exampleClusterWithReport
        [exampleRescanReport, exampleRescanReport] =
      readWriter.Write Cluster.objectResolver exampleClusterWithReport [exampleRescanReport] :=
  ⟨C11_write_is_idempotent Cluster.objectResolver Cluster.empty
      { Cluster.empty with
        Reports := [{ exampleReport with Meta := { exampleReport.Meta with UID := "u" } }],
        Serial := 1 }
      { Cluster.empty with
        Reports := [{ exampleReport with Meta := { exampleReport.Meta with UID := "u" } }],
        Serial := 1 }
      exampleReport Cluster.client_readsItsWrites (by rfl) (by rfl),
   by rfl⟩

/-! ## The order and the failure of `Write` -/

/-- A failing `createOrUpdate` leaves the cluster as it was. -/
theorem readWriter.createOrUpdate_error_state {σ : Type} (r : ObjectResolver σ) (st st1 : σ)
    (report : VulnerabilityReport) (err : Err)
    (h : readWriter.createOrUpdate r st report = (some err, st1)) : st1 = st := by
  unfold readWriter.createOrUpdate at h
  cases hget : r.Client.Get st report.Meta.Name report.Meta.Namespace with
  | ok existing =>
    simp only [hget] at h
    cases hu : r.Client.Update st
        { Meta := { existing.Meta with Labels := report.Meta.Labels },
          Report := report.Report } with
    | error e =>
      simp only [hu, writeOutcome, Prod.mk.injEq] at h
      exact h.2.symm
    | ok s => simp [hu, writeOutcome] at h
  | error e =>
    simp only [hget] at h
    by_cases hnf : IsNotFound e = true
    · simp only [hnf, if_true] at h
      cases hc : r.Client.Create st report with
      | error e1 =>
        simp only [hc, writeOutcome, Prod.mk.injEq] at h
        exact h.2.symm
      | ok s => simp [hc, writeOutcome] at h
    · simp only [hnf, Bool.false_eq_true, if_false, Prod.mk.injEq] at h
      exact h.2.symm

/-- A write of reports written before, followed by further reports, continues
from the state that the first reports left. -/
theorem readWriter.Write_append_of_ok {σ : Type} (r : ObjectResolver σ) (st st1 : σ)
    (before rest : List VulnerabilityReport)
    (h : readWriter.Write r st before = (none, st1)) :
    readWriter.Write r st (before ++ rest) = readWriter.Write r st1 rest := by
  induction before generalizing st with
  | nil =>
    simp only [readWriter.Write, Prod.mk.injEq, true_and] at h
    subst h
    rfl
  | cons x xs ih =>
    simp only [List.cons_append, readWriter.Write] at h ⊢
    cases hx : readWriter.createOrUpdate r st x with
    | mk e s =>
      cases e with
      | some err => simp [hx] at h
      | none =>
        simp only [hx] at h ⊢
        exact ih s h

/-- A write that returns nil has written every report, one after the other. -/
theorem readWriter.Write_ok_split {σ : Type} (r : ObjectResolver σ) (st stN : σ)
    (before : List VulnerabilityReport) (report : VulnerabilityReport)
    (after : List VulnerabilityReport)
    (h : readWriter.Write r st (before ++ report :: after) = (none, stN)) :
    ∃ s1 s2, readWriter.Write r st before = (none, s1) ∧
      readWriter.createOrUpdate r s1 report = (none, s2) ∧
      readWriter.Write r s2 after = (none, stN) := by
  induction before generalizing st with
  | nil =>
    simp only [List.nil_append, readWriter.Write] at h
    cases hx : readWriter.createOrUpdate r st report with
    | mk e s =>
      cases e with
      | some err => simp [hx] at h
      | none =>
        simp only [hx] at h
        exact ⟨st, s, rfl, hx, h⟩
  | cons x xs ih =>
    simp only [List.cons_append, readWriter.Write] at h
    cases hx : readWriter.createOrUpdate r st x with
    | mk e s =>
      cases e with
      | some err => simp [hx] at h
      | none =>
        simp only [hx] at h
        obtain ⟨s1, s2, h1, h2, h3⟩ := ih s h
        refine ⟨s1, s2, ?_, h2, h3⟩
        simp only [readWriter.Write, hx, h1]

/-- A write that returns an error has stopped at a first failing report. -/
theorem readWriter.Write_error_split {σ : Type} (r : ObjectResolver σ) (st stN : σ)
    (reports : List VulnerabilityReport) (err : Err)
    (h : readWriter.Write r st reports = (some err, stN)) :
    ∃ before report after s1, reports = before ++ report :: after ∧
      readWriter.Write r st before = (none, s1) ∧
      readWriter.createOrUpdate r s1 report = (some err, s1) ∧ stN = s1 := by
  induction reports generalizing st with
  | nil => simp [readWriter.Write] at h
  | cons x xs ih =>
    simp only [readWriter.Write] at h
    cases hx : readWriter.createOrUpdate r st x with
    | mk e s =>
      cases e with
      | some err1 =>
        simp only [hx, Prod.mk.injEq, Option.some.injEq] at h
        obtain ⟨he, hs⟩ := h
        subst he hs
        have hst := readWriter.createOrUpdate_error_state r st s x err1 hx
        subst hst
        exact ⟨[], x, xs, s, rfl, rfl, hx, rfl⟩
      | none =>
        simp only [hx] at h
        obtain ⟨before, report, after, s1, hsplit, h1, h2, h3⟩ := ih s h
        refine ⟨x :: before, report, after, s1, by simp [hsplit], ?_, h2, h3⟩
        simp only [readWriter.Write, hx, h1]
/-- C21: `Write` handles the reports in the order of the slice and stops at the
first report whose `createOrUpdate` fails. It then returns that error as it is, in
the state that the writes of the reports before left, whatever reports follow the
failing one. It returns nil only when every report was written, one after the
other, and every error it returns is the error of a first failing report. On the
empty slice it returns nil and leaves the store as it was. -/
theorem C21_write_stops_at_first_failure {σ : Type} (r : ObjectResolver σ) (st : σ) :
    readWriter.Write r st [] = (none, st) ∧
    (∀ (before : List VulnerabilityReport) (report : VulnerabilityReport)
        (after : List VulnerabilityReport) (st1 st2 : σ) (err : Err),
      readWriter.Write r st before = (none, st1) →
      readWriter.createOrUpdate r st1 report = (some err, st2) →
      readWriter.Write r st (before ++ report :: after) = (some err, st1) ∧
      ∀ others : List VulnerabilityReport,
        readWriter.Write r st (before ++ report :: others) = (some err, st1)) ∧
    (∀ (before : List VulnerabilityReport) (report : VulnerabilityReport)
        (after : List VulnerabilityReport) (stN : σ),
      readWriter.Write r st (before ++ report :: after) = (none, stN) →
      ∃ s1 s2, readWriter.Write r st before = (none, s1) ∧
        readWriter.createOrUpdate r s1 report = (none, s2) ∧
        readWriter.Write r s2 after = (none, stN)) ∧
    (∀ (reports : List VulnerabilityReport) (err : Err) (stN : σ),
      readWriter.Write r st reports = (some err, stN) →
      ∃ before report after s1, reports = before ++ report :: after ∧
        readWriter.Write r st before = (none, s1) ∧
        readWriter.createOrUpdate r s1 report = (some err, s1) ∧ stN = s1) := by
  refine ⟨rfl, ?_, ?_, ?_⟩
  · intro before report after st1 st2 err hbefore hfail
    have hst := readWriter.createOrUpdate_error_state r st1 st2 report err hfail
    subst hst
    have hstop : ∀ others : List VulnerabilityReport,
        readWriter.Write r st (before ++ report :: others) = (some err, st2) := by
      intro others
      rw [readWriter.Write_append_of_ok r st st2 before (report :: others) hbefore]
      simp only [readWriter.Write, hfail]
    exact ⟨hstop after, hstop⟩
  · intro before report after stN h
    exact readWriter.Write_ok_split r st stN before report after h
  · intro reports err stN h
    exact readWriter.Write_error_split r st stN reports err h

/-- C21 on the in-memory store with a forbidden record: the first report is
created and stays, the lookup of the second fails and its error is returned, and
the third report, which would update the record of the first, is not written. -/
theorem C21_write_stops_at_first_failure_witness :
    readWriter.Write (forbiddingResolver "replicaset-web-5d4f-app") Cluster.empty
        ([exampleReport] ++ exampleReplicaSetReport :: [exampleRescanReport]) =
      (some (.Status (.Other "Forbidden")
          "vulnerabilityreports replicaset-web-5d4f-app is forbidden"),
        exampleClusterAfterFirstWrite) ∧
    exampleClusterAfterFirstWrite.Reports.map (fun x => (x.Meta.Name, x.Report)) =
      [("deployment-web-app", "P")] ∧
    (readWriter.Write (forbiddingResolver "replicaset-web-5d4f-app") Cluster.empty
        [exampleReport, exampleRescanReport]).2.Reports.map
        (fun x => (x.Meta.Name, x.Report)) =
      [("deployment-web-app", "new")] :=
  ⟨((C21_write_stops_at_first_failure (forbiddingResolver "replicaset-web-5d4f-app")
      Cluster.empty).2.1 [exampleReport] exampleReplicaSetReport [exampleRescanReport]
      exampleClusterAfterFirstWrite exampleClusterAfterFirstWrite
      (.Status (.Other "Forbidden")
        "vulnerabilityreports replicaset-web-5d4f-app is forbidden")
      (by rfl) (by rfl)).1,
   by decide, by rfl⟩

end Starboard
